import Mathlib

set_option maxRecDepth 40000

/-!
Verification of the color-preserving vectorization pipeline of the
`maliaka` repository (`src/python-service`), against its natural-language
specification.

The Python pipeline operates on `numpy`/OpenCV images.  We embed it
shallowly:

* images and masks are grids of natural numbers (byte values; masks use the
  `> 128` convention for "set", matching `mask > 128` in the source);
* OpenCV morphology (`cv2.morphologyEx` with `MORPH_OPEN`/`MORPH_CLOSE`)
  is embedded following OpenCV's documented semantics: erosion takes the
  minimum over the structuring-element neighbourhood (kernel positions
  relative to the anchor, the centre `(ksize/2, ksize/2)`, i.e. `(1,1)`
  both for the 2×2 and the 3×3 all-ones kernels used by the source),
  dilation the maximum over the reflected element, and the default
  constant border value (`morphologyDefaultBorderValue`) makes
  out-of-bounds pixels neutral for both operations, so out-of-bounds
  neighbours are simply skipped;
* `KMeans` (scikit-learn) and `potrace` are external collaborators: they
  enter as oracle parameters, exactly as the spec treats them ("specified
  only at their interface boundary");
* floating-point percentage arithmetic is modelled with `ℚ`.  The nearest
  palette colour search of `flatten_colors` computes
  `sqrt`-of-sum-of-squares in `float32`; on integer inputs `0..255` the
  squared sums (≤ 195075) are exactly representable and `Float.sqrt` is
  strictly monotone on them (consecutive integer radicands differ by more
  than an ulp there), so `np.argmin` over the floats equals `argmin` over
  the exact squared distances with the same first-wins tie-break, which is
  what we embed.
-/

/-- A single-channel image (mask): `h × w` grid of byte values.
`px` is total for convenience; the pipeline only consults in-bounds
pixels. -/
structure Grid where
  h : Nat
  w : Nat
  px : Nat → Nat → Nat

/-- A three-channel (BGR, matching the OpenCV-ordered `numpy` arrays of the
source) colour image. -/
structure Grid3 where
  h : Nat
  w : Nat
  px : Nat → Nat → Nat × Nat × Nat

/-- A pixel of a mask is "set" (foreground / member) iff it is in bounds
and its value exceeds 128 — the `mask > 128` convention used throughout
the source. -/
def Grid.fg (g : Grid) (r c : Nat) : Prop :=
  r < g.h ∧ c < g.w ∧ 128 < g.px r c

instance (g : Grid) (r c : Nat) : Decidable (g.fg r c) :=
  inferInstanceAs (Decidable (_ ∧ _ ∧ _))

/-- Guarded minimum accumulation: one structuring-element neighbour of an
erosion.  If the neighbour is out of bounds (`¬ p`) it is skipped
(OpenCV's `+∞` constant border). -/
def gmin (p : Prop) [Decidable p] (v a : Nat) : Nat := if p then min v a else a

/-- Guarded maximum accumulation: one structuring-element neighbour of a
dilation.  If the neighbour is out of bounds (`¬ p`) it is skipped
(OpenCV's `-∞` constant border). -/
def gmax (p : Prop) [Decidable p] (v a : Nat) : Nat := if p then max v a else a

/-- Erosion by the 2×2 all-ones element, anchor `(1,1)`:
minimum over the neighbour offsets `(0,0),(0,-1),(-1,0),(-1,-1)`. -/
def erode2 (g : Grid) : Grid :=
  ⟨g.h, g.w, fun r c =>
    gmin (1 ≤ r ∧ 1 ≤ c) (g.px (r-1) (c-1))
      (gmin (1 ≤ r) (g.px (r-1) c)
        (gmin (1 ≤ c) (g.px r (c-1)) (g.px r c)))⟩

/-- Dilation by the 2×2 all-ones element (kernel reflected about the
anchor, as OpenCV's `dilate` does): maximum over the offsets
`(0,0),(0,1),(1,0),(1,1)`. -/
def dilate2 (g : Grid) : Grid :=
  ⟨g.h, g.w, fun r c =>
    gmax (r+1 < g.h ∧ c+1 < g.w) (g.px (r+1) (c+1))
      (gmax (r+1 < g.h) (g.px (r+1) c)
        (gmax (c+1 < g.w) (g.px r (c+1)) (g.px r c)))⟩

/-- Erosion by the 3×3 all-ones element (anchor at the centre):
minimum over the full Moore neighbourhood. -/
def erode3 (g : Grid) : Grid :=
  ⟨g.h, g.w, fun r c =>
    gmin (r+1 < g.h ∧ c+1 < g.w) (g.px (r+1) (c+1))
      (gmin (r+1 < g.h ∧ 1 ≤ c) (g.px (r+1) (c-1))
        (gmin (r+1 < g.h) (g.px (r+1) c)
          (gmin (1 ≤ r ∧ c+1 < g.w) (g.px (r-1) (c+1))
            (gmin (1 ≤ r ∧ 1 ≤ c) (g.px (r-1) (c-1))
              (gmin (1 ≤ r) (g.px (r-1) c)
                (gmin (c+1 < g.w) (g.px r (c+1))
                  (gmin (1 ≤ c) (g.px r (c-1)) (g.px r c))))))))⟩

/-- Dilation by the 3×3 all-ones element (self-reflected):
maximum over the full Moore neighbourhood. -/
def dilate3 (g : Grid) : Grid :=
  ⟨g.h, g.w, fun r c =>
    gmax (r+1 < g.h ∧ c+1 < g.w) (g.px (r+1) (c+1))
      (gmax (r+1 < g.h ∧ 1 ≤ c) (g.px (r+1) (c-1))
        (gmax (r+1 < g.h) (g.px (r+1) c)
          (gmax (1 ≤ r ∧ c+1 < g.w) (g.px (r-1) (c+1))
            (gmax (1 ≤ r ∧ 1 ≤ c) (g.px (r-1) (c-1))
              (gmax (1 ≤ r) (g.px (r-1) c)
                (gmax (c+1 < g.w) (g.px r (c+1))
                  (gmax (1 ≤ c) (g.px r (c-1)) (g.px r c))))))))⟩

/-- `cv2.morphologyEx(·, MORPH_OPEN, np.ones((2,2)), iterations=1)`:
erosion then dilation. -/
def morphOpen2 (g : Grid) : Grid := dilate2 (erode2 g)

/-- `cv2.morphologyEx(·, MORPH_CLOSE, np.ones((2,2)), iterations=1)`:
dilation then erosion. -/
def morphClose2 (g : Grid) : Grid := erode2 (dilate2 g)

/-- `cv2.morphologyEx(·, MORPH_OPEN, np.ones((3,3)), iterations=2)`:
OpenCV applies `iterations` to each elementary operation, i.e. erode
twice then dilate twice. -/
def morphOpen3i2 (g : Grid) : Grid := dilate3 (dilate3 (erode3 (erode3 g)))

/-- `cv2.morphologyEx(·, MORPH_CLOSE, np.ones((3,3)), iterations=2)`:
dilate twice then erode twice. -/
def morphClose3i2 (g : Grid) : Grid := erode3 (erode3 (dilate3 (dilate3 g)))

/-- `np.sum(mask > 128)`: the number of set pixels of a mask. -/
def Grid.area (g : Grid) : Nat :=
  (List.range g.h).foldl (fun acc r =>
    acc + (List.range g.w).countP (fun c => 128 < g.px r c)) 0

/-- Extensional equality of two grids on their (equal) bounds.  OpenCV
arrays have no out-of-bounds pixels, so this is the right notion of
"same mask"; every pipeline operation only consults in-bounds pixels and
therefore respects it (congruence lemmas below). -/
def Grid.eqOn (g g' : Grid) : Prop :=
  g.h = g'.h ∧ g.w = g'.w ∧ ∀ r, r < g.h → ∀ c, c < g.w → g.px r c = g'.px r c

instance (g g' : Grid) : Decidable (g.eqOn g') :=
  inferInstanceAs (Decidable (_ ∧ _ ∧ _))

/-- Extensional equality of colour images on their bounds. -/
def Grid3.eqOn (g g' : Grid3) : Prop :=
  g.h = g'.h ∧ g.w = g'.w ∧ ∀ r, r < g.h → ∀ c, c < g.w → g.px r c = g'.px r c

instance (g g' : Grid3) : Decidable (g.eqOn g') :=
  inferInstanceAs (Decidable (_ ∧ _ ∧ _))

/-- Executable check for `Grid.eqOn` (used to discharge concrete
instances by kernel computation). -/
def Grid.eqOnB (g g' : Grid) : Bool :=
  (g.h == g'.h) && ((g.w == g'.w) &&
    ((List.range g.h).all fun r => (List.range g.w).all fun c => g.px r c == g'.px r c))

theorem Grid.eqOn_of_eqOnB {g g' : Grid} (h : g.eqOnB g' = true) : g.eqOn g' := by
  unfold Grid.eqOnB at h
  rw [Bool.and_eq_true, Bool.and_eq_true] at h
  obtain ⟨h1, h2, h3⟩ := h
  refine ⟨beq_iff_eq.mp h1, beq_iff_eq.mp h2, ?_⟩
  intro r hr c hc
  rw [List.all_eq_true] at h3
  have := h3 r (List.mem_range.mpr hr)
  rw [List.all_eq_true] at this
  exact beq_iff_eq.mp (this c (List.mem_range.mpr hc))

theorem Grid.eqOn_refl (g : Grid) : g.eqOn g :=
  ⟨rfl, rfl, fun _ _ _ _ => rfl⟩

theorem Grid.eqOn_trans {a b c : Grid} (h1 : a.eqOn b) (h2 : b.eqOn c) :
    a.eqOn c := by
  obtain ⟨e1, e2, e3⟩ := h1
  obtain ⟨f1, f2, f3⟩ := h2
  exact ⟨e1.trans f1, e2.trans f2, fun r hr cc hc =>
    (e3 r hr cc hc).trans (f3 r (e1 ▸ hr) cc (e2 ▸ hc))⟩

theorem gmin_congr {p q : Prop} [Decidable p] [Decidable q] (hpq : p ↔ q)
    {v v' a a' : Nat} (hv : q → v = v') (ha : a = a') :
    gmin p v a = gmin q v' a' := by
  unfold gmin
  by_cases hq : q
  · rw [if_pos (hpq.mpr hq), if_pos hq, hv hq, ha]
  · rw [if_neg (fun hp => hq (hpq.mp hp)), if_neg hq, ha]

theorem gmax_congr {p q : Prop} [Decidable p] [Decidable q] (hpq : p ↔ q)
    {v v' a a' : Nat} (hv : q → v = v') (ha : a = a') :
    gmax p v a = gmax q v' a' := by
  unfold gmax
  by_cases hq : q
  · rw [if_pos (hpq.mpr hq), if_pos hq, hv hq, ha]
  · rw [if_neg (fun hp => hq (hpq.mp hp)), if_neg hq, ha]

theorem gmin_le_acc {p : Prop} [Decidable p] (v a : Nat) : gmin p v a ≤ a := by
  unfold gmin; split
  · exact min_le_right _ _
  · exact le_refl a

theorem gmin_le_v {p : Prop} [Decidable p] (hp : p) (v a : Nat) : gmin p v a ≤ v := by
  unfold gmin; rw [if_pos hp]; exact min_le_left _ _

theorem gmax_le {p : Prop} [Decidable p] {v a B : Nat} (hv : p → v ≤ B) (ha : a ≤ B) :
    gmax p v a ≤ B := by
  unfold gmax; split
  · exact max_le (hv ‹p›) ha
  · exact ha

theorem eqOn_erode2 {g g' : Grid} (h : g.eqOn g') : (erode2 g).eqOn (erode2 g') := by
  obtain ⟨hh, hw, hp⟩ := h
  refine ⟨hh, hw, ?_⟩
  intro r hr c hc
  have hr' : r < g.h := hr
  have hc' : c < g.w := hc
  show gmin _ _ _ = gmin _ _ _
  exact gmin_congr Iff.rfl
    (fun hq => hp _ (by omega) _ (by omega))
    (gmin_congr Iff.rfl (fun hq => hp _ (by omega) _ (by omega))
      (gmin_congr Iff.rfl (fun hq => hp _ (by omega) _ (by omega))
        (hp _ hr' _ hc')))

theorem eqOn_dilate2 {g g' : Grid} (h : g.eqOn g') : (dilate2 g).eqOn (dilate2 g') := by
  obtain ⟨hh, hw, hp⟩ := h
  refine ⟨hh, hw, ?_⟩
  intro r hr c hc
  have hr' : r < g.h := hr
  have hc' : c < g.w := hc
  show gmax _ _ _ = gmax _ _ _
  exact gmax_congr (by rw [hh, hw])
    (fun hq => hp _ (by omega) _ (by omega))
    (gmax_congr (by rw [hh]) (fun hq => hp _ (by omega) _ hc')
      (gmax_congr (by rw [hw]) (fun hq => hp _ hr' _ (by omega))
        (hp _ hr' _ hc')))

theorem eqOn_erode3 {g g' : Grid} (h : g.eqOn g') : (erode3 g).eqOn (erode3 g') := by
  obtain ⟨hh, hw, hp⟩ := h
  refine ⟨hh, hw, ?_⟩
  intro r hr c hc
  have hr' : r < g.h := hr
  have hc' : c < g.w := hc
  show gmin _ _ _ = gmin _ _ _
  exact gmin_congr (by rw [hh, hw]) (fun hq => hp _ (by omega) _ (by omega))
    (gmin_congr (by rw [hh]) (fun hq => hp _ (by omega) _ (by omega))
      (gmin_congr (by rw [hh]) (fun hq => hp _ (by omega) _ hc')
        (gmin_congr (by rw [hw]) (fun hq => hp _ (by omega) _ (by omega))
          (gmin_congr Iff.rfl (fun hq => hp _ (by omega) _ (by omega))
            (gmin_congr Iff.rfl (fun hq => hp _ (by omega) _ hc')
              (gmin_congr (by rw [hw]) (fun hq => hp _ hr' _ (by omega))
                (gmin_congr Iff.rfl (fun hq => hp _ hr' _ (by omega))
                  (hp _ hr' _ hc'))))))))

theorem eqOn_dilate3 {g g' : Grid} (h : g.eqOn g') : (dilate3 g).eqOn (dilate3 g') := by
  obtain ⟨hh, hw, hp⟩ := h
  refine ⟨hh, hw, ?_⟩
  intro r hr c hc
  have hr' : r < g.h := hr
  have hc' : c < g.w := hc
  show gmax _ _ _ = gmax _ _ _
  exact gmax_congr (by rw [hh, hw]) (fun hq => hp _ (by omega) _ (by omega))
    (gmax_congr (by rw [hh]) (fun hq => hp _ (by omega) _ (by omega))
      (gmax_congr (by rw [hh]) (fun hq => hp _ (by omega) _ hc')
        (gmax_congr (by rw [hw]) (fun hq => hp _ (by omega) _ (by omega))
          (gmax_congr Iff.rfl (fun hq => hp _ (by omega) _ (by omega))
            (gmax_congr Iff.rfl (fun hq => hp _ (by omega) _ hc')
              (gmax_congr (by rw [hw]) (fun hq => hp _ hr' _ (by omega))
                (gmax_congr Iff.rfl (fun hq => hp _ hr' _ (by omega))
                  (hp _ hr' _ hc'))))))))

theorem eqOn_morphOpen2 {g g' : Grid} (h : g.eqOn g') :
    (morphOpen2 g).eqOn (morphOpen2 g') := eqOn_dilate2 (eqOn_erode2 h)

theorem eqOn_morphClose2 {g g' : Grid} (h : g.eqOn g') :
    (morphClose2 g).eqOn (morphClose2 g') := eqOn_erode2 (eqOn_dilate2 h)

theorem eqOn_morphOpen3i2 {g g' : Grid} (h : g.eqOn g') :
    (morphOpen3i2 g).eqOn (morphOpen3i2 g') :=
  eqOn_dilate3 (eqOn_dilate3 (eqOn_erode3 (eqOn_erode3 h)))

theorem eqOn_morphClose3i2 {g g' : Grid} (h : g.eqOn g') :
    (morphClose3i2 g).eqOn (morphClose3i2 g') :=
  eqOn_erode3 (eqOn_erode3 (eqOn_dilate3 (eqOn_dilate3 h)))

theorem Grid.eqOn_area {g g' : Grid} (h : g.eqOn g') : g.area = g'.area := by
  obtain ⟨hh, hw, hp⟩ := h
  unfold Grid.area
  rw [← hh, ← hw]
  refine List.foldl_ext _ _ _ ?_
  intro acc r hr
  have hr' : r < g.h := List.mem_range.mp hr
  congr 1
  refine List.countP_congr ?_
  intro c hc
  rw [hp r hr' c (List.mem_range.mp hc)]

/-- Extensionally equal grids have the same set pixels. -/
theorem Grid.eqOn_fg {g g' : Grid} (h : g.eqOn g') (r c : Nat) : g.fg r c ↔ g'.fg r c := by
  obtain ⟨hh, hw, hp⟩ := h
  unfold Grid.fg
  constructor
  · rintro ⟨h1, h2, h3⟩
    exact ⟨hh ▸ h1, hw ▸ h2, hp r h1 c h2 ▸ h3⟩
  · rintro ⟨h1, h2, h3⟩
    have h1' : r < g.h := hh ▸ h1
    have h2' : c < g.w := hw ▸ h2
    exact ⟨h1', h2', (hp r h1' c h2').symm ▸ h3⟩

/-- Anti-extensivity of the 2×2 erosion at a pixel (the `(0,0)` offset is
part of the structuring element). -/
theorem erode2_px_le_base (g : Grid) (r c : Nat) : (erode2 g).px r c ≤ g.px r c :=
  le_trans (gmin_le_acc _ _) (le_trans (gmin_le_acc _ _) (gmin_le_acc _ _))

theorem erode2_px_shift11 (g : Grid) (r c : Nat) :
    (erode2 g).px (r+1) (c+1) ≤ g.px r c :=
  gmin_le_v ⟨Nat.le_add_left 1 r, Nat.le_add_left 1 c⟩ _ _

theorem erode2_px_shift10 (g : Grid) (r c : Nat) :
    (erode2 g).px (r+1) c ≤ g.px r c :=
  le_trans (gmin_le_acc _ _) (gmin_le_v (Nat.le_add_left 1 r) _ _)

theorem erode2_px_shift01 (g : Grid) (r c : Nat) :
    (erode2 g).px r (c+1) ≤ g.px r c :=
  le_trans (gmin_le_acc _ _) (le_trans (gmin_le_acc _ _)
    (gmin_le_v (Nat.le_add_left 1 c) _ _))

/-- The 2×2 morphological opening is anti-extensive pixelwise: every
output value is bounded by the input value at the same pixel (for each
dilation neighbour `(r+Δr, c+Δc)` the reflected erosion offset
`(-Δr, -Δc)` brings the minimum back over the original pixel). -/
theorem morphOpen2_px_le (g : Grid) (r c : Nat) :
    (morphOpen2 g).px r c ≤ g.px r c := by
  show gmax _ _ _ ≤ _
  exact gmax_le (fun _ => erode2_px_shift11 g r c)
    (gmax_le (fun _ => erode2_px_shift10 g r c)
      (gmax_le (fun _ => erode2_px_shift01 g r c) (erode2_px_le_base g r c)))

/-! ## Stage 2 data model: `ColorInfo` and the palette (`pipeline/color_cleanup.py`) -/

/-- One lowercase hex digit, as produced by Python's `%x` formatting. -/
def hexDigit (n : Nat) : Char := Nat.digitChar n

/-- Python `f"{n:02x}"` for a byte value: two lowercase hex digits. -/
def byteHex (n : Nat) : String := String.mk [hexDigit (n / 16 % 16), hexDigit (n % 16)]

/-- `ColorInfo` (`color_cleanup.py`): an RGB triple, its pixel count, its
percentage of the foreground, and the derived `#rrggbb` hex string
(computed in the constructor as `f"#{rgb[0]:02x}{rgb[1]:02x}{rgb[2]:02x}"`).
Percentages are floats in the source; we model them exactly in `ℚ`. -/
structure ColorInfo where
  rgb : Nat × Nat × Nat
  count : Nat
  percentage : ℚ
  hex : String
deriving DecidableEq, Repr

/-- The `ColorInfo.__init__` constructor: derives the hex string from the
rgb triple. -/
def mkColorInfo (rgb : Nat × Nat × Nat) (count : Nat) (percentage : ℚ) : ColorInfo :=
  ⟨rgb, count, percentage, "#" ++ byteHex rgb.1 ++ byteHex rgb.2.1 ++ byteHex rgb.2.2⟩

/-- RGB→BGR reordering (`[c.rgb[2], c.rgb[1], c.rgb[0]]` in the source). -/
def bgrOfRgb (rgb : Nat × Nat × Nat) : Nat × Nat × Nat := (rgb.2.2, rgb.2.1, rgb.1)

/-- The in-bounds set positions of a mask in row-major order: the `numpy`
boolean-mask enumeration order used by `image[mask_bool]`. -/
def maskedPositions (mask : Grid) : List (Nat × Nat) :=
  (List.range mask.h).flatMap (fun r =>
    (List.range mask.w).filterMap (fun c =>
      if 128 < mask.px r c then some (r, c) else none))

/-- `pixels = image[mask_bool]`: the foreground pixel values in row-major
order. -/
def pixelsOf (image : Grid3) (mask : Grid) : List (Nat × Nat × Nat) :=
  (maskedPositions mask).map (fun p => image.px p.1 p.2)

/-- Insert a value into a sorted duplicate-free list, keeping it sorted
and duplicate-free. -/
def insertSortedUnique (x : Nat) : List Nat → List Nat
  | [] => [x]
  | y :: ys =>
    if x < y then x :: y :: ys
    else if x = y then y :: ys
    else y :: insertSortedUnique x ys

/-- The sorted distinct values of a list: the first component of
`np.unique(labels, return_counts=True)`. -/
def uniqueSorted (l : List Nat) : List Nat := l.foldr insertSortedUnique []

/-- The per-value counts aligned with `uniqueSorted`: the second component
of `np.unique(labels, return_counts=True)`. -/
def countsOf (l : List Nat) : List Nat := (uniqueSorted l).map (fun v => l.count v)

/-- Interface of the external scikit-learn
`KMeans(n_clusters=k, random_state=42, n_init=10, max_iter=300)` call:
given the foreground pixel list and `k`, it returns the cluster centres
(`cluster_centers_.astype(np.uint8)`, BGR byte triples) and the per-pixel
labels.  The pipeline is verified for every oracle; specific theorems
state their interface assumptions (e.g. that every cluster is used)
explicitly. -/
abbrev KMeansOracle :=
  List (Nat × Nat × Nat) → Nat → List (Nat × Nat × Nat) × List Nat

/-- The effective cluster count of `extract_dominant_colors`: the request
clamped to `[3,7]` (`n_colors = max(3, min(7, n_colors))`), further
reduced to `max(1, len(pixels))` when fewer foreground pixels exist than
the clamped count. -/
def effectiveK (n_colors : Int) (npixels : Nat) : Nat :=
  let n1 : Int := max 3 (min 7 n_colors)
  if (npixels : Int) < n1 then max 1 npixels else n1.toNat

/-- The `color_info_list` loop of `extract_dominant_colors`: run the
clustering oracle, count each cluster's pixels via
`np.unique(labels, return_counts=True)` (`counts[i] if i < len(counts)
else 0` — positional indexing into the unique-value counts), convert BGR
centres to RGB `ColorInfo`s with `percentage = count/total*100`, and
keep only entries at or above the minimum percentage.
`percentage = (count / total) * 100` is computed here as the exact
rational `mkRat (count*100) total`; the source computes it in floating
point, whose rounding we idealise away (the claims concern the exact
value). -/
def rawColorInfos (kmeans : KMeansOracle) (pixels : List (Nat × Nat × Nat)) (k : Nat)
    (min_color_percentage : ℚ) : List ColorInfo :=
  let res := kmeans pixels k
  let counts := countsOf res.2
  let total := pixels.length
  res.1.enum.filterMap (fun ic =>
    let count := counts.getD ic.1 0
    let percentage : ℚ := mkRat (count * 100) total
    if min_color_percentage ≤ percentage then
      some (mkColorInfo (ic.2.2.2, ic.2.2.1, ic.2.1) count percentage)
    else none)

/-- The percentage-descending stable sort of the kept colour entries
(`color_info_list.sort(key=lambda x: x.percentage, reverse=True)`;
Python's sort is stable, and with `reverse=True` equal keys keep their
original order, i.e. a stable sort under the "later percentage ≤ earlier
percentage" comparator). -/
def sortedColorInfos (l : List ColorInfo) : List ColorInfo :=
  l.mergeSort (fun a b => decide (b.percentage ≤ a.percentage))

/-- `extract_dominant_colors` (`color_cleanup.py`): clamp the requested
count to `[3,7]`, collect the foreground pixels, bail out with an empty
palette on a blank mask (`return [], image.copy()`), reduce the cluster
count below the foreground pixel count, cluster, turn clusters into
`ColorInfo` entries (dropping those under the minimum percentage), and
sort by percentage descending.

The second return value is `color_mapped`: the source allocates
`np.zeros_like(image)`, then the loop
`color_mapped[mask_bool][i] = colors_bgr[label]` assigns into a temporary
produced by fancy indexing — a `numpy` no-op — and finally
`color_mapped[~mask_bool] = [255,255,255]` paints the background white,
so foreground pixels remain zeros.  (`create_color_map` discards this
value.) -/
def extract_dominant_colors (kmeans : KMeansOracle) (image : Grid3) (mask : Grid)
    (n_colors : Int := 5) (min_color_percentage : ℚ := 2) :
    List ColorInfo × Grid3 :=
  let pixels := pixelsOf image mask
  if pixels.length = 0 then
    ([], image)
  else
    let k := effectiveK n_colors pixels.length
    let sorted := sortedColorInfos (rawColorInfos kmeans pixels k min_color_percentage)
    (sorted, ⟨image.h, image.w, fun r c =>
      if 128 < mask.px r c then (0, 0, 0) else (255, 255, 255)⟩)

/-- Exact squared Euclidean distance between two colour triples.  (See the
file header: the `float32` `sqrt` distances of the source order integers
exactly as their squares do, with the same first-minimum tie-break.) -/
def sqDist (p q : Nat × Nat × Nat) : Int :=
  ((p.1 : Int) - q.1) * ((p.1 : Int) - q.1) +
  ((p.2.1 : Int) - q.2.1) * ((p.2.1 : Int) - q.2.1) +
  ((p.2.2 : Int) - q.2.2) * ((p.2.2 : Int) - q.2.2)

/-- `np.argmin` over the distances from pixel `p` to each palette colour:
index of the first minimum. -/
def nearestIdx (bgrs : List (Nat × Nat × Nat)) (p : Nat × Nat × Nat) : Nat :=
  (bgrs.enum.foldl (fun best ic =>
    match best with
    | none => some (ic.1, sqDist p ic.2)
    | some bd => if sqDist p ic.2 < bd.2 then some (ic.1, sqDist p ic.2) else some bd)
    none).elim 0 (fun bd => bd.1)

/-- The number of set pixels of `mask` strictly before position `(r, c)`
in row-major order: the index that `numpy`'s boolean-mask assignment
`result[mask_bool] = flattened_pixels` gives to position `(r, c)`. -/
def countFgBefore (mask : Grid) (r c : Nat) : Nat :=
  ((List.range r).map (fun i => (List.range mask.w).countP (fun j => 128 < mask.px i j))).sum
    + (List.range c).countP (fun j => 128 < mask.px r j)

/-- `result[mask_bool] = vals`: each set position receives the value of
`vals` at its row-major rank among the set positions; all other pixels
keep the base image's value (`result = image.copy()`). -/
def writeBack (image : Grid3) (mask : Grid) (vals : List (Nat × Nat × Nat)) : Grid3 :=
  ⟨image.h, image.w, fun r c =>
    if r < mask.h ∧ c < mask.w ∧ 128 < mask.px r c then
      vals.getD (countFgBefore mask r c) (image.px r c)
    else image.px r c⟩

/-- `flatten_colors` (`color_cleanup.py`): map every foreground pixel to
its nearest palette colour (exact search, first match wins); all other
pixels keep their original value, since the result starts from
`image.copy()`. -/
def flatten_colors (image : Grid3) (mask : Grid) (color_palette : List ColorInfo) : Grid3 :=
  if color_palette.isEmpty then image
  else
    let palette_bgr := color_palette.map (fun c => bgrOfRgb c.rgb)
    let pixels := pixelsOf image mask
    if pixels.length = 0 then image
    else
      let flattened := pixels.map (fun p => palette_bgr.getD (nearestIdx palette_bgr p) (0, 0, 0))
      writeBack image mask flattened

/-- `create_color_map` (`color_cleanup.py`): extract the palette, then
flatten the original image to it (the `color_mapped` second component of
`extract_dominant_colors` is discarded). -/
def create_color_map (kmeans : KMeansOracle) (image : Grid3) (mask : Grid)
    (n_colors : Int := 5) : List ColorInfo × Grid3 :=
  let res := extract_dominant_colors kmeans image mask n_colors
  (res.1, flatten_colors image mask res.1)

/-! ### Row-major indexing lemmas for the `numpy` boolean-mask round trip -/

theorem length_filterMap_ite {α : Type} (g : Nat → α) (p : Nat → Prop) [DecidablePred p]
    (l : List Nat) :
    (l.filterMap (fun j => if p j then some (g j) else none)).length
      = l.countP (fun j => decide (p j)) := by
  induction l with
  | nil => rfl
  | cons x xs ih =>
    by_cases hx : p x
    · simp [List.filterMap_cons, hx, ih, List.countP_cons]
    · simp [List.filterMap_cons, hx, ih, List.countP_cons]

/-- The set position `(r,c)` sits at rank `countP (range c)` inside its
row's filterMap list. -/
theorem rowPos_getD (g : Grid) (r c : Nat) (hc : c < g.w) (hset : 128 < g.px r c)
    (d : Nat × Nat) :
    ((List.range g.w).filterMap (fun j => if 128 < g.px r j then some (r, j) else none)).getD
      ((List.range c).countP (fun j => decide (128 < g.px r j))) d = (r, c) := by
  obtain ⟨k, hk⟩ : ∃ k, g.w = (c+1) + k := ⟨g.w - (c+1), by omega⟩
  rw [hk, List.range_add, List.filterMap_append, List.range_succ, List.filterMap_append]
  have hlen : ((List.range c).filterMap
      (fun j => if 128 < g.px r j then some (r, j) else none)).length
      = (List.range c).countP (fun j => decide (128 < g.px r j)) :=
    length_filterMap_ite _ _ _
  have hsing : (List.filterMap (fun j => if 128 < g.px r j then some (r, j) else none) [c])
      = [(r, c)] := by
    simp [List.filterMap_cons, hset]
  rw [hsing]
  rw [List.getD_eq_getElem _ _ (by simp [hlen])]
  rw [List.getElem_append_left (by simp [hlen])]
  rw [List.getElem_append_right (by omega)]
  simp [hlen]

/-- The row-major rank `countFgBefore` indexes `maskedPositions` exactly at
position `(r,c)`, for any in-bounds set pixel. -/
theorem maskedPositions_getD (g : Grid) (r c : Nat) (hr : r < g.h) (hc : c < g.w)
    (hset : 128 < g.px r c) (d : Nat × Nat) :
    (maskedPositions g).getD (countFgBefore g r c) d = (r, c) := by
  unfold maskedPositions countFgBefore
  obtain ⟨k, hk⟩ : ∃ k, g.h = (r+1) + k := ⟨g.h - (r+1), by omega⟩
  rw [hk, List.range_add, List.flatMap_append, List.range_succ, List.flatMap_append]
  set F : Nat → List (Nat × Nat) :=
    fun i => (List.range g.w).filterMap (fun j => if 128 < g.px i j then some (i, j) else none)
    with hF
  set P := (List.range r).flatMap F with hP
  set inner := (List.range c).countP (fun j => decide (128 < g.px r j)) with hinnerDef
  have hPlen : P.length
      = ((List.range r).map (fun i =>
          (List.range g.w).countP (fun j => decide (128 < g.px i j)))).sum := by
    rw [hP, List.length_flatMap]
    congr 1
    refine List.map_congr_left ?_
    intro i _
    exact length_filterMap_ite _ _ _
  have hsingle : [r].flatMap F = F r := by simp
  have hinner : inner < (F r).length := by
    rw [hF]
    simp only []
    rw [length_filterMap_ite]
    obtain ⟨m, hm⟩ : ∃ m, g.w = (c+1) + m := ⟨g.w - (c+1), by omega⟩
    have h1 : (List.range (c+1)).countP (fun j => decide (128 < g.px r j))
        = (List.range c).countP (fun j => decide (128 < g.px r j)) + 1 := by
      rw [List.range_succ, List.countP_append]
      simp [hset]
    rw [hm, List.range_add, List.countP_append, h1]
    omega
  rw [hsingle, List.append_assoc]
  have hbound : ((List.range r).map (fun i =>
        (List.range g.w).countP (fun j => decide (128 < g.px i j)))).sum + inner
      < (P ++ (F r ++ (List.map (fun x => r + 1 + x) (List.range k)).flatMap F)).length := by
    simp only [List.length_append]
    omega
  rw [List.getD_eq_getElem _ _ hbound]
  rw [List.getElem_append_right (by omega)]
  rw [List.getElem_append_left (i := _ - P.length) (by rw [hPlen]; omega)]
  have : (F r).getD inner d = (r, c) := by
    rw [hF]
    exact rowPos_getD g r c hc hset d
  rw [List.getD_eq_getElem _ _ hinner] at this
  convert this using 2
  omega

/-- The row-major rank of an in-bounds set pixel is a valid index into
`maskedPositions`. -/
theorem countFgBefore_lt_length (g : Grid) (r c : Nat) (hr : r < g.h) (hc : c < g.w)
    (hset : 128 < g.px r c) :
    countFgBefore g r c < (maskedPositions g).length := by
  unfold maskedPositions countFgBefore
  obtain ⟨k, hk⟩ : ∃ k, g.h = (r+1) + k := ⟨g.h - (r+1), by omega⟩
  rw [hk, List.range_add, List.flatMap_append, List.range_succ, List.flatMap_append]
  set F : Nat → List (Nat × Nat) :=
    fun i => (List.range g.w).filterMap (fun j => if 128 < g.px i j then some (i, j) else none)
    with hF
  have hPlen : ((List.range r).flatMap F).length
      = ((List.range r).map (fun i =>
          (List.range g.w).countP (fun j => decide (128 < g.px i j)))).sum := by
    rw [List.length_flatMap]
    congr 1
    refine List.map_congr_left ?_
    intro i _
    exact length_filterMap_ite _ _ _
  have hinner : (List.range c).countP (fun j => decide (128 < g.px r j)) < (F r).length := by
    rw [hF]
    simp only []
    rw [length_filterMap_ite]
    obtain ⟨m, hm⟩ : ∃ m, g.w = (c+1) + m := ⟨g.w - (c+1), by omega⟩
    have h1 : (List.range (c+1)).countP (fun j => decide (128 < g.px r j))
        = (List.range c).countP (fun j => decide (128 < g.px r j)) + 1 := by
      rw [List.range_succ, List.countP_append]
      simp [hset]
    rw [hm, List.range_add, List.countP_append, h1]
    omega
  have hsingle : [r].flatMap F = F r := by simp
  rw [hsingle]
  simp only [List.length_append]
  omega

/-- Membership in `maskedPositions` is exactly "in-bounds and set". -/
theorem mem_maskedPositions {g : Grid} {p : Nat × Nat} :
    p ∈ maskedPositions g ↔ p.1 < g.h ∧ p.2 < g.w ∧ 128 < g.px p.1 p.2 := by
  unfold maskedPositions
  rw [List.mem_flatMap]
  constructor
  · rintro ⟨r, hr, hmem⟩
    rw [List.mem_filterMap] at hmem
    obtain ⟨c, hc, heq⟩ := hmem
    by_cases hs : 128 < g.px r c
    · rw [if_pos hs] at heq
      cases heq
      exact ⟨List.mem_range.mp hr, List.mem_range.mp hc, hs⟩
    · rw [if_neg hs] at heq
      cases heq
  · rintro ⟨h1, h2, h3⟩
    refine ⟨p.1, List.mem_range.mpr h1, ?_⟩
    rw [List.mem_filterMap]
    exact ⟨p.2, List.mem_range.mpr h2, by rw [if_pos h3]⟩

/-- A mask with no set pixel has no masked positions. -/
theorem maskedPositions_eq_nil {g : Grid}
    (h : ∀ r, r < g.h → ∀ c, c < g.w → g.px r c ≤ 128) :
    maskedPositions g = [] := by
  rw [List.eq_nil_iff_forall_not_mem]
  intro p hp
  rw [mem_maskedPositions] at hp
  exact absurd hp.2.2 (not_lt.mpr (h p.1 hp.1 p.2 hp.2.1))

/-- Pointwise description of `flatten_colors`: with a non-empty palette,
every in-bounds set pixel becomes its nearest palette colour (in BGR,
first minimum wins) and every other pixel keeps the original image
value. -/
theorem flatten_colors_px (image : Grid3) (mask : Grid) (pal : List ColorInfo)
    (hne : pal ≠ []) (r c : Nat) (hr : r < mask.h) (hc : c < mask.w) :
    (flatten_colors image mask pal).px r c =
      if 128 < mask.px r c then
        (pal.map (fun ci => bgrOfRgb ci.rgb)).getD
          (nearestIdx (pal.map (fun ci => bgrOfRgb ci.rgb)) (image.px r c)) (0, 0, 0)
      else image.px r c := by
  unfold flatten_colors
  rw [if_neg (by simpa using hne)]
  by_cases hset : 128 < mask.px r c
  · have hmem : (r, c) ∈ maskedPositions mask :=
      mem_maskedPositions.mpr ⟨hr, hc, hset⟩
    have hlen0 : (pixelsOf image mask).length ≠ 0 := by
      unfold pixelsOf
      rw [List.length_map]
      intro h0
      rw [List.length_eq_zero] at h0
      rw [h0] at hmem
      exact absurd hmem (List.not_mem_nil _)
    rw [if_neg hlen0]
    show (writeBack image mask _).px r c = _
    unfold writeBack
    simp only []
    rw [if_pos ⟨hr, hc, hset⟩, if_pos hset]
    have hblt : countFgBefore mask r c < (maskedPositions mask).length :=
      countFgBefore_lt_length mask r c hr hc hset
    have hblt2 : countFgBefore mask r c < (pixelsOf image mask).length := by
      unfold pixelsOf
      rw [List.length_map]
      exact hblt
    have hblt3 : countFgBefore mask r c
        < ((pixelsOf image mask).map (fun p =>
            (pal.map (fun ci => bgrOfRgb ci.rgb)).getD
              (nearestIdx (pal.map (fun ci => bgrOfRgb ci.rgb)) p) (0, 0, 0))).length := by
      rw [List.length_map]
      exact hblt2
    rw [List.getD_eq_getElem _ _ hblt3]
    rw [List.getElem_map]
    congr 1
    unfold pixelsOf
    rw [List.getElem_map]
    have := maskedPositions_getD mask r c hr hc hset (0, 0)
    rw [List.getD_eq_getElem _ _ hblt] at this
    rw [this]
  · by_cases hlen : (pixelsOf image mask).length = 0
    · rw [if_pos hlen, if_neg hset]
    · rw [if_neg hlen]
      show (writeBack image mask _).px r c = _
      unfold writeBack
      simp only []
      rw [if_neg (by intro hcon; exact hset hcon.2.2), if_neg hset]

/-! ## Stage 3: colour-based segmentation (`pipeline/segmentation.py`) -/

/-- `ColorRegion` (`segmentation.py`): a palette colour together with its
binary mask.  (The derived bounding box is not consulted by any claim and
is omitted from the embedding.) -/
structure ColorRegion where
  color_info : ColorInfo
  mask : Grid

/-- The per-colour candidate mask before morphological cleanup:
`cv2.inRange(image, lower, upper)` intersected (`cv2.bitwise_and`) with
the overall drawing mask.

`lower_bound`/`upper_bound` are computed in the source as
`np.maximum(target_bgr - tolerance, 0)` and
`np.minimum(target_bgr + tolerance, 255)` on `np.uint8` values: the
subtraction and addition wrap modulo 256 (so e.g. a channel value 5 with
tolerance 10 yields a lower bound of 251), after which the
`maximum`/`minimum` against 0/255 are no-ops on bytes.  We embed that
wrapping faithfully. -/
def colorCandidate (image : Grid3) (mask : Grid) (ci : ColorInfo) (tolerance : Nat) : Grid :=
  let target := bgrOfRgb ci.rgb
  let lo := ((target.1 + 256 - tolerance % 256) % 256,
             (target.2.1 + 256 - tolerance % 256) % 256,
             (target.2.2 + 256 - tolerance % 256) % 256)
  let hi := ((target.1 + tolerance % 256) % 256,
             (target.2.1 + tolerance % 256) % 256,
             (target.2.2 + tolerance % 256) % 256)
  ⟨image.h, image.w, fun r c =>
    let p := image.px r c
    let v : Nat :=
      if lo.1 ≤ p.1 ∧ p.1 ≤ hi.1 ∧ lo.2.1 ≤ p.2.1 ∧ p.2.1 ≤ hi.2.1 ∧
         lo.2.2 ≤ p.2.2 ∧ p.2.2 ≤ hi.2.2 then 255 else 0
    Nat.land v (mask.px r c)⟩

/-- The candidate mask after the in-loop intersection and the single 2×2
opening — the last point in `extract_color_regions` at which the mask is
still guaranteed inside the foreground mask (see `C2`). -/
def preMask (image : Grid3) (mask : Grid) (ci : ColorInfo) (tolerance : Nat := 10) : Grid :=
  morphOpen2 (colorCandidate image mask ci tolerance)

/-- The per-colour mask `extract_color_regions` keeps for a region:
candidate ∩ mask, then 2×2 opening, then 2×2 closing. -/
def candidateMask (image : Grid3) (mask : Grid) (ci : ColorInfo) (tolerance : Nat := 10) : Grid :=
  morphClose2 (preMask image mask ci tolerance)

/-- `extract_color_regions` (`segmentation.py`): one candidate mask per
palette colour, kept only when its set-pixel count is strictly above 100
(`if area > 100`), then sorted by area, largest first
(`regions.sort(key=..., reverse=True)`, a stable sort). -/
def extract_color_regions (image : Grid3) (mask : Grid) (color_palette : List ColorInfo)
    (tolerance : Nat := 10) : List ColorRegion :=
  (color_palette.filterMap (fun ci =>
    let m := candidateMask image mask ci tolerance
    if 100 < m.area then some (⟨ci, m⟩ : ColorRegion) else none)).mergeSort
    (fun a b => decide (b.mask.area ≤ a.mask.area))

/-- `clean_boundaries` (`segmentation.py`): a single 2×2 opening in
style-preserving mode; a 3×3 opening and closing, two iterations each,
otherwise. -/
def clean_boundaries (mask : Grid) (preserve_style : Bool := true) : Grid :=
  if preserve_style then morphOpen2 mask
  else morphClose3i2 (morphOpen3i2 mask)

/-- `segment_by_color` (`segmentation.py`): extract the sorted region
list, then replace each region's mask by its boundary-cleaned version
(the in-place `region.mask = clean_boundaries(...)` loop). -/
def segment_by_color (image : Grid3) (mask : Grid) (color_palette : List ColorInfo)
    (preserve_style : Bool := true) : List ColorRegion :=
  (extract_color_regions image mask color_palette).map
    (fun region => ⟨region.color_info, clean_boundaries region.mask preserve_style⟩)

/-! ## String utilities used by stages 4 and 5

The source manipulates SVG text with `str.replace`, `'\n'.join` and two
regular expressions.  We implement the string operations on `List Char`.
The scanning functions take the remaining string length as explicit fuel;
`fuel = s.length` always suffices because every step consumes at least
one character, so the exported wrappers have exactly the intended
semantics. -/

/-- Is `pat` a leading segment of `s`? -/
def startsWithL : List Char → List Char → Bool
  | [], _ => true
  | _ :: _, [] => false
  | p :: ps, c :: cs => p = c && startsWithL ps cs

/-- Count the occurrences of a (non-empty) pattern in a string. -/
def countSub (pat : List Char) : List Char → Nat
  | [] => 0
  | c :: cs => (if startsWithL pat (c :: cs) then 1 else 0) + countSub pat cs

/-- Does the pattern occur anywhere in the string? -/
def hasSub (pat : List Char) : List Char → Bool
  | [] => pat.isEmpty
  | c :: cs => startsWithL pat (c :: cs) || hasSub pat cs

/-- Python `s.replace(pat, rep)` (non-overlapping, left to right), with
explicit fuel. -/
def replaceAllAux (pat rep : List Char) : Nat → List Char → List Char
  | 0, s => s
  | _ + 1, [] => []
  | fuel + 1, c :: cs =>
    if pat ≠ [] ∧ startsWithL pat (c :: cs) then
      rep ++ replaceAllAux pat rep fuel (List.drop (pat.length - 1) cs)
    else c :: replaceAllAux pat rep fuel cs

/-- Python `s.replace(pat, rep)` for a non-empty pattern. -/
def replaceAll (pat rep s : List Char) : List Char :=
  replaceAllAux pat rep s.length s

/-- The literal searched by the regex `fill="[^"]*"`. -/
def fillPat : List Char := "fill=\"".toList

/-- Split a string at its first `"`: `some (before, after)` when present. -/
def splitAtQuote : List Char → Option (List Char × List Char)
  | [] => none
  | c :: cs =>
    if c = '"' then some ([], cs)
    else (splitAtQuote cs).map (fun p => (c :: p.1, p.2))

/-- `re.sub(r'fill="[^"]*"', f'fill="{hex}"', s)`: every `fill="…"`
attribute (the `[^"]*` body runs to the next quote) is rewritten to the
given colour; a `fill="` with no closing quote has no match and stops the
scan, with explicit fuel. -/
def subFillAux (hex : List Char) : Nat → List Char → List Char
  | 0, s => s
  | _ + 1, [] => []
  | fuel + 1, c :: cs =>
    if startsWithL fillPat (c :: cs) then
      match splitAtQuote (List.drop 5 cs) with
      | some p => (fillPat ++ hex ++ ['"']) ++ subFillAux hex fuel p.2
      | none => c :: cs
    else c :: subFillAux hex fuel cs

/-- `re.sub(r'fill="[^"]*"', f'fill="{hex}"', s)`. -/
def subFill (hex s : List Char) : List Char := subFillAux hex s.length s

/-- The literal `<svg` opening of the regex `(<svg[^>]*>)`. -/
def svgOpenPat : List Char := "<svg".toList

/-- The characters up to and including the first `>`, if any (the
`[^>]*>` tail of the tag regex). -/
def takeThroughGt : List Char → Option (List Char)
  | [] => none
  | c :: cs => if c = '>' then some [c] else (takeThroughGt cs).map (c :: ·)

/-- `re.search(r'(<svg[^>]*>)', s)`: the first `<svg` with a later `>`
yields the tag text through that `>`. -/
def findSvgTag : List Char → Option (List Char)
  | [] => none
  | c :: cs =>
    if startsWithL svgOpenPat (c :: cs) then
      match takeThroughGt (c :: cs) with
      | some tag => some tag
      | none => findSvgTag cs
    else findSvgTag cs

/-! ## Stage 4: vectorization (`pipeline/vectorization.py`) -/

/-- Interface of the external `potrace` invocation performed by
`vectorize_mask_to_svg`: the inverted mask bitmap plus the parameters
`--color`, `--turdsize`, `--opttolerance` (the remaining flags `-s`,
`--alphamax 1.0`, `--flat` are fixed), returning the produced SVG text,
or `none` for any of the failure modes the source collapses to an empty
result (timeout, non-zero exit, missing binary, missing output file,
raised exception). -/
abbrev PotraceOracle := Grid → String → String → String → Option String

/-- `mask_inverted = 255 - mask`: potrace traces dark pixels, the
pipeline's masks are bright-foreground. -/
def invertMask (mask : Grid) : Grid := ⟨mask.h, mask.w, fun r c => 255 - mask.px r c⟩

/-- `vectorize_mask_to_svg` (`vectorization.py`): invert the mask, choose
style-dependent tracer parameters (`opttolerance` 0.2/0.4, `turdsize`
3/5), call potrace, and return its SVG text — or `''` on any failure
(the `except`/missing-file paths). -/
def vectorize_mask_to_svg (potrace : PotraceOracle) (mask : Grid) (color_hex : String)
    (width height : Nat) (preserve_style : Bool := true) : String :=
  let mask_inverted := invertMask mask
  let opttolerance := if preserve_style then "0.2" else "0.4"
  let turdsize := if preserve_style then "3" else "5"
  match potrace mask_inverted color_hex turdsize opttolerance with
  | some svg_content => svg_content
  | none => ""

/-- Interface of `extract_paths_from_svg`: the regex extraction of `path`
elements from the tracer's own document.  It consumes only the external
tracer's output, so we keep it as a parameter; the claims constrain only
whether its result is empty (the source maps `''` to `''` and otherwise
returns the rebuilt `<path …/>` lines). -/
abbrev ExtractPathsOracle := String → String

/-- The list of SVG lines a single region contributes inside
`vectorize_regions`' loop: nothing if tracing failed or yielded no paths,
otherwise an opening `<g>` tag carrying the region's colour, the paths
with every `fill` forced to that colour (`paths.replace('fill="black"', …)`
followed by `re.sub(r'fill="[^"]*"', …)`), and the closing tag. -/
def groupParts (potrace : PotraceOracle) (extractPaths : ExtractPathsOracle)
    (region : ColorRegion) (image_width image_height : Nat) (preserve_style : Bool) :
    List String :=
  let color_hex := region.color_info.hex
  let svg_content := vectorize_mask_to_svg potrace region.mask color_hex
    image_width image_height preserve_style
  if svg_content ≠ "" then
    let paths := extractPaths svg_content
    if paths ≠ "" then
      let paths_colored := String.mk (subFill color_hex.toList
        (replaceAll "fill=\"black\"".toList ("fill=\"" ++ color_hex ++ "\"").toList
          paths.toList))
      ["<g fill=\"" ++ color_hex ++ "\" stroke=\"none\">", paths_colored, "</g>"]
    else []
  else []

/-- The document header built by `vectorize_regions`. -/
def svgHeader (image_width image_height : Nat) : String :=
  "<svg xmlns=\"http://www.w3.org/2000/svg\" width=\"" ++ toString image_width ++
  "\" height=\"" ++ toString image_height ++ "\" viewBox=\"0 0 " ++
  toString image_width ++ " " ++ toString image_height ++ "\">"

/-- The `svg_parts` list assembled by `vectorize_regions`: header, the
`drawing` group opener, each region's contribution in region-list order,
then the two closing tags. -/
def vectorize_parts (potrace : PotraceOracle) (extractPaths : ExtractPathsOracle)
    (regions : List ColorRegion) (image_width image_height : Nat)
    (preserve_style : Bool := true) : List String :=
  [svgHeader image_width image_height, "<g id=\"drawing\">"] ++
    regions.flatMap (fun region =>
      groupParts potrace extractPaths region image_width image_height preserve_style) ++
    ["</g>", "</svg>"]

/-- `vectorize_regions` (`vectorization.py`): `'\n'.join(svg_parts)`. -/
def vectorize_regions (potrace : PotraceOracle) (extractPaths : ExtractPathsOracle)
    (regions : List ColorRegion) (image_width image_height : Nat)
    (preserve_style : Bool := true) : String :=
  String.intercalate "\n"
    (vectorize_parts potrace extractPaths regions image_width image_height preserve_style)

/-! ## Stage 5: post-processing (`pipeline/postprocessing.py`) -/

/-- `optimize_svg_paths`: an explicit pass-through in the source
("For MVP, we'll keep paths as-is"). -/
def optimize_svg_paths (svg_content : String) : String := svg_content

/-- `organize_svg_layers`: an explicit pass-through in the source. -/
def organize_svg_layers (svg_content : String) : String := svg_content

/-- `add_metadata` (`postprocessing.py`): find the `<svg …>` opening tag,
build the metadata comment, and insert it after the tag via
`svg_content.replace(svg_tag, svg_tag + '\n' + metadata)`.
`processing_time` is wall-clock time formatted `{:.2f}`; real time lies
outside the embedding, so the formatted figure is a parameter. -/
def add_metadata (svg_content : String) (colors : List ColorInfo)
    (original_w original_h : Nat) (style : String) (processing_time_str : String) :
    String :=
  match findSvgTag svg_content.toList with
  | none => svg_content
  | some tagL =>
    let svg_tag := String.mk tagL
    let color_list := String.intercalate ", " (colors.map (fun c => c.hex))
    let metadata := "<!--\n    Metadata:\n    - Colors: " ++ color_list ++
      "\n    - Color Count: " ++ toString colors.length ++
      "\n    - Original Size: " ++ toString original_w ++ "x" ++ toString original_h ++
      "\n    - Style: " ++ style ++
      "\n    - Processing Time: " ++ processing_time_str ++ "s\n-->"
    String.mk (replaceAll tagL (svg_tag ++ "\n" ++ metadata).toList svg_content.toList)

/-- `postprocess_svg` (`postprocessing.py`): optimize (no-op), organize
(no-op), then add metadata. -/
def postprocess_svg (svg_content : String) (colors : List ColorInfo)
    (original_w original_h : Nat) (style : String) (processing_time_str : String) :
    String :=
  add_metadata (organize_svg_layers (optimize_svg_paths svg_content)) colors
    original_w original_h style processing_time_str

/-! ## The request handler (`app_color.py`, `process_image`)

We model the handler from the point where the decoded BGR image and the
stage-1 output are available: upload validation, image decoding/resizing
and `preprocess_image` (stage 1, AI/threshold mask extraction — an
external oracle per the spec) are abstracted into the `bgr_image`/`mask`
inputs.  The success payload keeps the palette as `ColorInfo` values
(`to_dict` serialisation is formatting only); wall-clock timing fields
are carried as an opaque pre-formatted string. -/

/-- The fields of the HTTP 200 JSON payload of `process_image`. -/
structure SuccessData where
  svg : String
  colors : List ColorInfo
  originalW : Nat
  originalH : Nat
  processedW : Nat
  processedH : Nat
  processingTime : String
  colorCount : Nat
  regionCount : Nat
  style : String
deriving DecidableEq, Repr

/-- A JSON response of the handler: success payload, or an HTTP status
plus `error` message. -/
inductive Response where
  | ok : SuccessData → Response
  | err : Nat → String → Response
deriving DecidableEq, Repr

/-- Is the response a success? -/
def Response.isOk : Response → Bool
  | .ok _ => true
  | .err _ _ => false

/-- The success payload of a response (junk default on errors). -/
def Response.payload : Response → SuccessData
  | .ok d => d
  | .err _ _ => ⟨"", [], 0, 0, 0, 0, "", 0, 0, ""⟩

/-- `process_image` (`app_color.py`), stages 2–5 plus response assembly:
clamp `colorCount` to `[3,7]`, run `create_color_map`, fail with
`"Failed to extract colors from image"` (500) on an empty palette, run
`segment_by_color`, fail with `"Failed to segment image into color
regions"` (500) on an empty region list, run `vectorize_regions`, fail
with `"Vectorization failed or produced empty result"` (500) when the SVG
text is empty or shorter than 100 characters, else post-process and
return the 200 payload, whose `metadata.regionCount` is
`len(color_regions)`. -/
def process_image (kmeans : KMeansOracle) (potrace : PotraceOracle)
    (extractPaths : ExtractPathsOracle) (bgr_image : Grid3) (mask : Grid)
    (original_w original_h : Nat) (colorCount : Int) (preserve_style : Bool)
    (processing_time_str : String) : Response :=
  let color_count := max 3 (min 7 colorCount)
  let processed_width := bgr_image.w
  let processed_height := bgr_image.h
  let cm := create_color_map kmeans bgr_image mask color_count
  let color_palette := cm.1
  let color_flattened := cm.2
  if color_palette.isEmpty then
    .err 500 "Failed to extract colors from image"
  else
    let color_regions := segment_by_color color_flattened mask color_palette preserve_style
    if color_regions.isEmpty then
      .err 500 "Failed to segment image into color regions"
    else
      let svg_content := vectorize_regions potrace extractPaths color_regions
        processed_width processed_height preserve_style
      if svg_content = "" ∨ svg_content.length < 100 then
        .err 500 "Vectorization failed or produced empty result"
      else
        let style := if preserve_style then "authentic" else "clean"
        let final_svg := postprocess_svg svg_content color_palette original_w original_h
          style processing_time_str
        .ok ⟨final_svg, color_palette, original_w, original_h, processed_width,
          processed_height, processing_time_str, color_palette.length,
          color_regions.length, style⟩

/-- A list permuting a two-element list is one of its two arrangements. -/
theorem perm_pair_cases {α : Type} {l : List α} {a b : α} (h : l.Perm [a, b]) :
    l = [a, b] ∨ l = [b, a] := by
  rcases l with _ | ⟨x, _ | ⟨y, _ | ⟨z, t⟩⟩⟩
  · exact absurd h.length_eq (by simp)
  · exact absurd h.length_eq (by simp)
  · have hx : x ∈ [a, b] := h.mem_iff.mp (by simp)
    simp only [List.mem_cons, List.mem_singleton, List.not_mem_nil, or_false] at hx
    rcases hx with h1 | h1
    · subst h1
      left
      have h2 : [y].Perm [b] := h.cons_inv
      have : y = b := by simpa using h2.mem_iff.mp (by simp)
      rw [this]
    · subst h1
      right
      have hswap : ([x, a] : List α).Perm [a, x] := List.Perm.swap a x []
      have h2 : [y].Perm [a] := (h.trans hswap.symm).cons_inv
      have : y = a := by simpa using h2.mem_iff.mp (by simp)
      rw [this]
  · exact absurd h.length_eq (by simp)

/-- `mergeSort` on a two-element list, for a total transitive comparator:
the stable two-element sort. -/
theorem mergeSort_pair {α : Type} (le : α → α → Bool)
    (htrans : ∀ a b c, le a b = true → le b c = true → le a c = true)
    (htot : ∀ a b, (le a b || le b a) = true) (a b : α) :
    [a, b].mergeSort le = if le a b then [a, b] else [b, a] := by
  by_cases hab : le a b = true
  · rw [if_pos hab]
    refine List.mergeSort_of_sorted ?_
    simp [List.pairwise_cons, hab]
  · rw [if_neg hab]
    have hsorted := List.sorted_mergeSort htrans htot [a, b]
    have hperm := List.mergeSort_perm [a, b] le
    rcases perm_pair_cases hperm with he | he
    · rw [he] at hsorted
      simp [List.pairwise_cons] at hsorted
      exact absurd hsorted hab
    · exact he

/-! ## Claims -/

/-- C10: for every mask, boundary cleanup in style-preserving mode
(`preserve_style=true`) returns a mask whose set pixels are a subset of
the input's set pixels: the single 2×2 morphological opening is
anti-extensive, so style-preserving cleanup only ever removes pixels from
a region and never adds any. -/
theorem C10_clean_boundaries_preserve_style_anti_extensive
    (mask : Grid) (r c : Nat) (h : (clean_boundaries mask true).fg r c) :
    mask.fg r c := by
  obtain ⟨h1, h2, h3⟩ := h
  have hle : (clean_boundaries mask true).px r c ≤ mask.px r c :=
    morphOpen2_px_le mask r c
  exact ⟨h1, h2, lt_of_lt_of_le h3 hle⟩

/-- Witness for C10 at a concrete 2×2 all-set mask and pixel (1,1). -/
theorem C10_witness :
    (clean_boundaries ⟨2, 2, fun _ _ => 255⟩ true).fg 1 1 ∧
      (Grid.fg ⟨2, 2, fun _ _ => 255⟩ 1 1) :=
  ⟨by decide, C10_clean_boundaries_preserve_style_anti_extensive _ 1 1 (by decide)⟩

/-- C9 (amended): the Region Segmenter keeps a candidate colour mask
exactly when its set-pixel count after the 2×2 open/close cleanup is
strictly greater than 100 (`if area > 100`); a mask with exactly 100 set
pixels is discarded. -/
theorem C9_extract_color_regions_mem_iff (image : Grid3) (mask : Grid)
    (color_palette : List ColorInfo) (tolerance : Nat) (reg : ColorRegion) :
    reg ∈ extract_color_regions image mask color_palette tolerance ↔
      ∃ ci ∈ color_palette, 100 < (candidateMask image mask ci tolerance).area ∧
        reg = ⟨ci, candidateMask image mask ci tolerance⟩ := by
  unfold extract_color_regions
  rw [List.Perm.mem_iff (List.mergeSort_perm _ _)]
  rw [List.mem_filterMap]
  constructor
  · rintro ⟨ci, hci, hf⟩
    simp only [] at hf
    by_cases h : 100 < (candidateMask image mask ci tolerance).area
    · rw [if_pos h] at hf
      cases hf
      exact ⟨ci, hci, h, rfl⟩
    · rw [if_neg h] at hf
      cases hf
  · rintro ⟨ci, hci, h, rfl⟩
    refine ⟨ci, hci, ?_⟩
    simp only []
    rw [if_pos h]

/-- The uniform 10×10 scenario refuting C9 as stated: the candidate mask
has exactly 100 set pixels after cleanup. -/
def imgC9 : Grid3 := ⟨10, 10, fun _ _ => (50, 100, 200)⟩

/-- All-set 10×10 drawing mask for the C9 scenario. -/
def maskC9 : Grid := ⟨10, 10, fun _ _ => 255⟩

/-- The single palette colour of the C9 scenario (BGR (50,100,200)). -/
def ciC9 : ColorInfo := mkColorInfo (200, 100, 50) 100 100

/-- Literal: the all-set 10×10 grid of the C9 scenario. -/
def allC9 : Grid := ⟨10, 10, fun _ _ => 255⟩

theorem candC9_eqOn : (colorCandidate imgC9 maskC9 ciC9 10).eqOn allC9 :=
  Grid.eqOn_of_eqOnB (by rfl)

theorem erodeC9_eqOn : (erode2 allC9).eqOn allC9 := Grid.eqOn_of_eqOnB (by rfl)

theorem dilateC9_eqOn : (dilate2 allC9).eqOn allC9 := Grid.eqOn_of_eqOnB (by rfl)

/-- The 2×2 open/close of the all-set candidate is all-set. -/
theorem closeC9_eqOn : (candidateMask imgC9 maskC9 ciC9 10).eqOn allC9 :=
  Grid.eqOn_trans (eqOn_erode2 (Grid.eqOn_trans (eqOn_dilate2
      (Grid.eqOn_trans (eqOn_dilate2 (Grid.eqOn_trans (eqOn_erode2 candC9_eqOn)
        erodeC9_eqOn)) dilateC9_eqOn)) dilateC9_eqOn)) erodeC9_eqOn

theorem areaC9 : (candidateMask imgC9 maskC9 ciC9 10).area = 100 :=
  (Grid.eqOn_area closeC9_eqOn).trans (by rfl)

/-- Counterexample to C9 as stated: this candidate mask has exactly 100
set pixels after the 2×2 open/close cleanup — "at least 100" — yet
`extract_color_regions` discards it (`area > 100` is strict), producing
no region. -/
theorem C9_counterexample :
    (candidateMask imgC9 maskC9 ciC9 10).area = 100 ∧
      (extract_color_regions imgC9 maskC9 [ciC9]).length = 0 := by
  refine ⟨areaC9, ?_⟩
  have hngt : ¬ 100 < (candidateMask imgC9 maskC9 ciC9 10).area := by
    rw [areaC9]
    omega
  unfold extract_color_regions
  rw [(List.mergeSort_perm _ _).length_eq]
  have hf : (fun ci =>
      let m := candidateMask imgC9 maskC9 ci 10
      if 100 < m.area then some (⟨ci, m⟩ : ColorRegion) else none) ciC9 = none := by
    show (if 100 < (candidateMask imgC9 maskC9 ciC9 10).area then
      some (⟨ciC9, candidateMask imgC9 maskC9 ciC9 10⟩ : ColorRegion) else none) = none
    rw [if_neg hngt]
  have hstep : List.filterMap (fun ci =>
      let m := candidateMask imgC9 maskC9 ci 10
      if 100 < m.area then some (⟨ci, m⟩ : ColorRegion) else none) [ciC9] =
      List.filterMap (fun ci =>
        let m := candidateMask imgC9 maskC9 ci 10
        if 100 < m.area then some (⟨ci, m⟩ : ColorRegion) else none) [] :=
    List.filterMap_cons_none hf
  rw [hstep, List.filterMap_nil]
  rfl

/-- C2 (amended): after the intersection with the foreground mask and the
2×2 opening, each candidate mask is still a subset of the foreground mask
(`preMask`); the region's final mask is the 2×2 closing of that mask,
and the closing may add pixels outside the foreground (see the
counterexample). -/
theorem C2_preMask_subset_foreground (image : Grid3) (mask : Grid) (ci : ColorInfo)
    (tolerance : Nat) (hh : mask.h = image.h) (hw : mask.w = image.w) (r c : Nat)
    (h : (preMask image mask ci tolerance).fg r c) :
    candidateMask image mask ci tolerance = morphClose2 (preMask image mask ci tolerance) ∧
      mask.fg r c := by
  refine ⟨rfl, ?_⟩
  obtain ⟨h1, h2, h3⟩ := h
  have h1' : r < image.h := h1
  have h2' : c < image.w := h2
  have hle : (preMask image mask ci tolerance).px r c
      ≤ (colorCandidate image mask ci tolerance).px r c :=
    morphOpen2_px_le _ r c
  have hcand : (colorCandidate image mask ci tolerance).px r c ≤ mask.px r c := by
    show Nat.land _ _ ≤ _
    exact Nat.and_le_right
  exact ⟨hh ▸ h1', hw ▸ h2', lt_of_lt_of_le (lt_of_lt_of_le h3 hle) hcand⟩

/-- Witness scenario for the amended C2: a 2×2 uniform image. -/
def imgC2w : Grid3 := ⟨2, 2, fun _ _ => (50, 100, 200)⟩

/-- Witness mask for the amended C2. -/
def maskC2w : Grid := ⟨2, 2, fun _ _ => 255⟩

/-- Witness colour for the amended C2. -/
def ciC2w : ColorInfo := mkColorInfo (200, 100, 50) 4 100

/-- Witness for the amended C2 at pixel (0,0). -/
theorem C2_witness :
    (candidateMask imgC2w maskC2w ciC2w 10 = morphClose2 (preMask imgC2w maskC2w ciC2w 10) ∧
      maskC2w.fg 0 0) ∧ (preMask imgC2w maskC2w ciC2w 10).fg 0 0 :=
  ⟨C2_preMask_subset_foreground imgC2w maskC2w ciC2w 10 rfl rfl 0 0 (by decide), by decide⟩

/-- The C2 counterexample mask: all set except the single pixel (3,8). -/
def maskC2 : Grid := ⟨6, 17, fun r c => if r = 3 ∧ c = 8 then 0 else 255⟩

/-- The C2 counterexample image: uniformly the palette colour. -/
def imgC2 : Grid3 := ⟨6, 17, fun _ _ => (50, 100, 200)⟩

/-- The single palette colour of the C2 counterexample. -/
def ciC2 : ColorInfo := mkColorInfo (200, 100, 50) 102 100

/-- Literal: the all-set 6×17 grid of the C2 scenario. -/
def allC2 : Grid := ⟨6, 17, fun _ _ => 255⟩

/-- Literal: the C2 candidate after one 2×2 erosion — the hole grows to a
2×2 block (rows 3–4, columns 8–9). -/
def erodedC2 : Grid :=
  ⟨6, 17, fun r c => if (r = 3 ∨ r = 4) ∧ (c = 8 ∨ c = 9) then 0 else 255⟩

theorem candC2_eqOn : (colorCandidate imgC2 maskC2 ciC2 10).eqOn maskC2 :=
  Grid.eqOn_of_eqOnB (by rfl)

theorem erodeC2_eqOn : (erode2 maskC2).eqOn erodedC2 := Grid.eqOn_of_eqOnB (by rfl)

theorem dilateC2_eqOn : (dilate2 erodedC2).eqOn maskC2 := Grid.eqOn_of_eqOnB (by rfl)

theorem dilateHoleC2_eqOn : (dilate2 maskC2).eqOn allC2 := Grid.eqOn_of_eqOnB (by rfl)

theorem erodeAllC2_eqOn : (erode2 allC2).eqOn allC2 := Grid.eqOn_of_eqOnB (by rfl)

theorem dilateAllC2_eqOn : (dilate2 allC2).eqOn allC2 := Grid.eqOn_of_eqOnB (by rfl)

/-- The 2×2 opening leaves the holed C2 candidate unchanged. -/
theorem preC2_eqOn : (preMask imgC2 maskC2 ciC2 10).eqOn maskC2 :=
  Grid.eqOn_trans (eqOn_dilate2 (Grid.eqOn_trans (eqOn_erode2 candC2_eqOn) erodeC2_eqOn))
    dilateC2_eqOn

/-- The 2×2 closing fills the hole: the C2 candidate mask is all-set. -/
theorem closeC2_eqOn : (candidateMask imgC2 maskC2 ciC2 10).eqOn allC2 :=
  Grid.eqOn_trans (eqOn_erode2 (Grid.eqOn_trans (eqOn_dilate2 preC2_eqOn) dilateHoleC2_eqOn))
    erodeAllC2_eqOn

theorem areaC2 : (candidateMask imgC2 maskC2 ciC2 10).area = 102 :=
  (Grid.eqOn_area closeC2_eqOn).trans (by rfl)

/-- The boundary cleanup keeps the filled C2 mask all-set. -/
theorem cleanC2_eqOn :
    (clean_boundaries (candidateMask imgC2 maskC2 ciC2 10) true).eqOn allC2 :=
  Grid.eqOn_trans (eqOn_dilate2 (Grid.eqOn_trans (eqOn_erode2 closeC2_eqOn) erodeAllC2_eqOn))
    dilateAllC2_eqOn

/-- Counterexample to C2 as stated: segmentation produces exactly one
region, whose mask is set at (3,8) — a pixel that is clear in the
foreground mask.  The 2×2 closing fills the one-pixel hole, escaping the
foreground mask. -/
theorem C2_counterexample :
    segment_by_color imgC2 maskC2 [ciC2] true =
      [⟨ciC2, clean_boundaries (candidateMask imgC2 maskC2 ciC2) true⟩] ∧
      (clean_boundaries (candidateMask imgC2 maskC2 ciC2) true).fg 3 8 ∧
      ¬ maskC2.fg 3 8 := by
  refine ⟨?_, ?_, by decide⟩
  · have hgt : 100 < (candidateMask imgC2 maskC2 ciC2 10).area := by
      rw [areaC2]
      omega
    have hf : (fun ci =>
        let m := candidateMask imgC2 maskC2 ci 10
        if 100 < m.area then some (⟨ci, m⟩ : ColorRegion) else none) ciC2 =
        some ⟨ciC2, candidateMask imgC2 maskC2 ciC2 10⟩ := by
      show (if 100 < (candidateMask imgC2 maskC2 ciC2 10).area then
        some (⟨ciC2, candidateMask imgC2 maskC2 ciC2 10⟩ : ColorRegion) else none) = _
      rw [if_pos hgt]
    have hstep : List.filterMap (fun ci =>
        let m := candidateMask imgC2 maskC2 ci 10
        if 100 < m.area then some (⟨ci, m⟩ : ColorRegion) else none) [ciC2] =
        (⟨ciC2, candidateMask imgC2 maskC2 ciC2 10⟩ : ColorRegion) ::
          List.filterMap (fun ci =>
            let m := candidateMask imgC2 maskC2 ci 10
            if 100 < m.area then some (⟨ci, m⟩ : ColorRegion) else none) [] :=
      List.filterMap_cons_some hf
    unfold segment_by_color extract_color_regions
    rw [hstep, List.filterMap_nil, List.mergeSort_singleton]
    rfl
  · exact (Grid.eqOn_fg cleanC2_eqOn 3 8).mpr (by decide)

/-- Evaluation form of the palette produced by `extract_dominant_colors`
when foreground pixels exist. -/
theorem extract_palette_eq (kmeans : KMeansOracle) (image : Grid3) (mask : Grid)
    (n : Int) (minp : ℚ) (h0 : ¬ (pixelsOf image mask).length = 0) :
    (extract_dominant_colors kmeans image mask n minp).1 =
      sortedColorInfos (rawColorInfos kmeans (pixelsOf image mask)
        (effectiveK n (pixelsOf image mask).length) minp) := by
  simp only [extract_dominant_colors]
  rw [if_neg h0]

/-- The palette component of `create_color_map` is the palette of
`extract_dominant_colors`, and its image component is `flatten_colors`
of the original image under that palette. -/
theorem create_color_map_eq (kmeans : KMeansOracle) (image : Grid3) (mask : Grid) (n : Int) :
    create_color_map kmeans image mask n =
      ((extract_dominant_colors kmeans image mask n).1,
        flatten_colors image mask (extract_dominant_colors kmeans image mask n).1) := rfl

/-- C4 (amended): in the flattened image produced by palette extraction
with a non-empty palette, every foreground pixel equals the exact colour
value of its nearest palette colour under Euclidean distance (ties to the
earliest palette entry), while every background pixel keeps its original
image value — the result starts from `image.copy()` and only foreground
pixels are overwritten (background is not set to white). -/
theorem C4_flatten_nearest_palette (kmeans : KMeansOracle) (n : Int)
    (image : Grid3) (mask : Grid) (pal : List ColorInfo) (hne : pal ≠ [])
    (r c : Nat) (hr : r < mask.h) (hc : c < mask.w) :
    (create_color_map kmeans image mask n).2
        = flatten_colors image mask (create_color_map kmeans image mask n).1 ∧
    (128 < mask.px r c →
      (flatten_colors image mask pal).px r c =
        (pal.map (fun ci => bgrOfRgb ci.rgb)).getD
          (nearestIdx (pal.map (fun ci => bgrOfRgb ci.rgb)) (image.px r c)) (0, 0, 0)) ∧
    (¬ 128 < mask.px r c →
      (flatten_colors image mask pal).px r c = image.px r c) := by
  refine ⟨rfl, ?_, ?_⟩
  · intro hset
    rw [flatten_colors_px image mask pal hne r c hr hc, if_pos hset]
  · intro hset
    rw [flatten_colors_px image mask pal hne r c hr hc, if_neg hset]

/-- The C4 witness/counterexample scenario: a 1×2 image whose first pixel
is foreground (BGR (50,100,200)) and whose second pixel is background
with the non-white colour (30,30,30). -/
def imgC4 : Grid3 := ⟨1, 2, fun _ c => if c = 0 then (50, 100, 200) else (30, 30, 30)⟩

/-- Mask for the C4 scenario: only pixel (0,0) is set. -/
def maskC4 : Grid := ⟨1, 2, fun _ c => if c = 0 then 255 else 0⟩

/-- Clustering oracle for the C4 scenario: one centre at the single
foreground pixel's colour, labelled 0. -/
def kmeansC4 : KMeansOracle := fun _ _ => ([(50, 100, 200)], [0])

/-- The palette entry the C4 scenario produces. -/
def ciC4 : ColorInfo := mkColorInfo (200, 100, 50) 1 100

/-- The palette computed in the C4 scenario. -/
theorem paletteC4_eq : (create_color_map kmeansC4 imgC4 maskC4 5).1 = [ciC4] := by
  rw [create_color_map_eq]
  show (extract_dominant_colors kmeansC4 imgC4 maskC4 5).1 = [ciC4]
  rw [extract_palette_eq kmeansC4 imgC4 maskC4 5 2 (by decide)]
  have : rawColorInfos kmeansC4 (pixelsOf imgC4 maskC4)
      (effectiveK 5 (pixelsOf imgC4 maskC4).length) 2 = [ciC4] := by decide
  rw [this]
  exact List.mergeSort_singleton _

/-- Counterexample to C4 as stated: in the flattened image returned by
palette extraction with this non-empty palette, the background pixel
(0,1) keeps its original value (30,30,30) — it is not set to white. -/
theorem C4_counterexample :
    (create_color_map kmeansC4 imgC4 maskC4 5).1 = [ciC4] ∧
    (create_color_map kmeansC4 imgC4 maskC4 5).2.px 0 1 = (30, 30, 30) ∧
    ¬ maskC4.fg 0 1 ∧
    ((30, 30, 30) : Nat × Nat × Nat) ≠ (255, 255, 255) := by
  refine ⟨paletteC4_eq, ?_, by decide, by decide⟩
  have h2 : (create_color_map kmeansC4 imgC4 maskC4 5).2
      = flatten_colors imgC4 maskC4 [ciC4] := by
    rw [create_color_map_eq]
    show flatten_colors imgC4 maskC4 (extract_dominant_colors kmeansC4 imgC4 maskC4 5).1
        = flatten_colors imgC4 maskC4 [ciC4]
    have := paletteC4_eq
    rw [create_color_map_eq] at this
    rw [this]
  rw [h2]
  rw [flatten_colors_px imgC4 maskC4 [ciC4] (by decide) 0 1 (by decide) (by decide)]
  rw [if_neg (by decide)]
  rfl

/-- Witness for the amended C4 at the concrete scenario: the foreground
pixel is flattened to the nearest palette colour, the background pixel is
unchanged. -/
theorem C4_witness :
    ((create_color_map kmeansC4 imgC4 maskC4 5).2
        = flatten_colors imgC4 maskC4 (create_color_map kmeansC4 imgC4 maskC4 5).1 ∧
      (128 < maskC4.px 0 0 →
        (flatten_colors imgC4 maskC4 [ciC4]).px 0 0 =
          ([ciC4].map (fun ci => bgrOfRgb ci.rgb)).getD
            (nearestIdx ([ciC4].map (fun ci => bgrOfRgb ci.rgb)) (imgC4.px 0 0)) (0, 0, 0)) ∧
      (¬ 128 < maskC4.px 0 0 →
        (flatten_colors imgC4 maskC4 [ciC4]).px 0 0 = imgC4.px 0 0)) :=
  C4_flatten_nearest_palette kmeansC4 5 imgC4 maskC4 [ciC4] (by decide) 0 0
    (by decide) (by decide)
/-- The comparator used for the palette sort is transitive. -/
theorem pctLe_trans : ∀ a b c : ColorInfo,
    (decide (b.percentage ≤ a.percentage)) = true →
    (decide (c.percentage ≤ b.percentage)) = true →
    (decide (c.percentage ≤ a.percentage)) = true := by
  intro a b c hab hbc
  rw [decide_eq_true_iff] at *
  exact le_trans hbc hab

/-- The comparator used for the palette sort is total. -/
theorem pctLe_total : ∀ a b : ColorInfo,
    ((decide (b.percentage ≤ a.percentage)) || (decide (a.percentage ≤ b.percentage))) = true := by
  intro a b
  rcases le_total b.percentage a.percentage with h | h
  · rw [decide_eq_true h, Bool.true_or]
  · rw [decide_eq_true h, Bool.or_true]

/-- With no foreground pixels every cluster's percentage is
`mkRat _ 0 = 0`, below the threshold, so no entry survives. -/
theorem rawColorInfos_of_no_pixels (kmeans : KMeansOracle)
    (pixels : List (Nat × Nat × Nat)) (k : Nat) (h0 : pixels.length = 0) :
    rawColorInfos kmeans pixels k 2 = [] := by
  unfold rawColorInfos
  rw [List.filterMap_eq_nil]
  intro ic _
  simp only [h0]
  rw [if_neg]
  intro hcon
  rw [show mkRat (List.getD (countsOf (kmeans pixels k).2) ic.1 0 * 100) 0 = 0 from
    Rat.mkRat_zero _] at hcon
  exact absurd hcon (by norm_num)

/-- C7: every palette entry's percentage is exactly
`count / total_foreground_pixels × 100` and at least the default
threshold 2; the palette is ordered with non-increasing percentages; and
the sort is stable — entries of equal percentage appear in exactly the
order in which extraction produced them (`rawColorInfos`). -/
theorem C7_palette_percentages (kmeans : KMeansOracle) (image : Grid3) (mask : Grid)
    (n : Int) :
    (∀ ci ∈ (extract_dominant_colors kmeans image mask n).1,
        ci.percentage = (ci.count : ℚ) / ((pixelsOf image mask).length : ℚ) * 100 ∧
          2 ≤ ci.percentage) ∧
      ((extract_dominant_colors kmeans image mask n).1.Pairwise
        (fun a b => b.percentage ≤ a.percentage)) ∧
      (∀ q : ℚ, (extract_dominant_colors kmeans image mask n).1.filter
            (fun ci => decide (ci.percentage = q))
          = (rawColorInfos kmeans (pixelsOf image mask)
              (effectiveK n (pixelsOf image mask).length) 2).filter
            (fun ci => decide (ci.percentage = q))) := by
  by_cases h0 : (pixelsOf image mask).length = 0
  · have he : (extract_dominant_colors kmeans image mask n).1 = [] := by
      simp only [extract_dominant_colors]
      rw [if_pos h0]
    refine ⟨?_, ?_, ?_⟩
    · intro ci hci
      rw [he] at hci
      exact absurd hci (List.not_mem_nil ci)
    · rw [he]
      exact List.Pairwise.nil
    · intro q
      rw [he, rawColorInfos_of_no_pixels kmeans _ _ h0]
  · have hpal := extract_palette_eq kmeans image mask n 2 h0
    set raw := rawColorInfos kmeans (pixelsOf image mask)
      (effectiveK n (pixelsOf image mask).length) 2 with hraw
    refine ⟨?_, ?_, ?_⟩
    · intro ci hci
      rw [hpal] at hci
      unfold sortedColorInfos at hci
      rw [(List.mergeSort_perm raw _).mem_iff] at hci
      rw [hraw] at hci
      unfold rawColorInfos at hci
      rw [List.mem_filterMap] at hci
      obtain ⟨ic, _, hf⟩ := hci
      simp only [] at hf
      by_cases hkeep : (2 : ℚ) ≤ mkRat (List.getD (countsOf (kmeans (pixelsOf image mask)
          (effectiveK n (pixelsOf image mask).length)).2) ic.1 0 * 100)
          (pixelsOf image mask).length
      · rw [if_pos hkeep] at hf
        cases hf
        constructor
        · simp only [mkColorInfo]
          rw [Rat.mkRat_eq_div]
          push_cast
          ring
        · exact hkeep
      · rw [if_neg hkeep] at hf
        cases hf
    · rw [hpal]
      unfold sortedColorInfos
      have hs := List.sorted_mergeSort pctLe_trans pctLe_total raw
      exact hs.imp (fun h => of_decide_eq_true h)
    · intro q
      rw [hpal]
      unfold sortedColorInfos
      have hfsub : (raw.filter (fun ci => decide (ci.percentage = q))).Sublist
          (raw.mergeSort (fun a b => decide (b.percentage ≤ a.percentage))) := by
        refine List.sublist_mergeSort pctLe_trans pctLe_total ?_ (List.filter_sublist raw)
        refine List.pairwise_of_forall_mem_list ?_
        intro a ha b hb
        have ha' := of_decide_eq_true (List.mem_filter.mp ha).2
        have hb' := of_decide_eq_true (List.mem_filter.mp hb).2
        rw [decide_eq_true_iff, hb', ha']
      have hperm : ((raw.mergeSort (fun a b => decide (b.percentage ≤ a.percentage))).filter
            (fun ci => decide (ci.percentage = q))).Perm
          (raw.filter (fun ci => decide (ci.percentage = q))) :=
        (List.mergeSort_perm raw _).filter _
      have hsub2 := hfsub.filter (fun ci => decide (ci.percentage = q))
      rw [List.filter_filter] at hsub2
      have hff : (raw.filter (fun a => decide (a.percentage = q) &&
          decide (a.percentage = q))) = raw.filter (fun ci => decide (ci.percentage = q)) := by
        refine List.filter_congr ?_
        intro x _
        rw [Bool.and_self]
      rw [hff] at hsub2
      exact (hsub2.eq_of_length hperm.length_eq.symm).symm
/-- Membership through `insertSortedUnique`. -/
theorem mem_insertSortedUnique {x y : Nat} {l : List Nat} :
    y ∈ insertSortedUnique x l ↔ y = x ∨ y ∈ l := by
  induction l with
  | nil => simp [insertSortedUnique]
  | cons z zs ih =>
    unfold insertSortedUnique
    by_cases h1 : x < z
    · rw [if_pos h1]
      simp [List.mem_cons]
    · rw [if_neg h1]
      by_cases h2 : x = z
      · rw [if_pos h2]
        subst h2
        simp [List.mem_cons]
      · rw [if_neg h2]
        simp only [List.mem_cons, ih]
        tauto

/-- `insertSortedUnique` preserves strictly-increasing chains. -/
theorem pairwise_insertSortedUnique {x : Nat} {l : List Nat}
    (h : l.Pairwise (· < ·)) : (insertSortedUnique x l).Pairwise (· < ·) := by
  induction l with
  | nil => simp [insertSortedUnique]
  | cons z zs ih =>
    rw [List.pairwise_cons] at h
    unfold insertSortedUnique
    by_cases h1 : x < z
    · rw [if_pos h1]
      refine List.Pairwise.cons ?_ (List.Pairwise.cons h.1 h.2)
      intro y hy
      rcases List.mem_cons.mp hy with rfl | hy'
      · exact h1
      · exact lt_trans h1 (h.1 y hy')
    · rw [if_neg h1]
      by_cases h2 : x = z
      · rw [if_pos h2]
        exact List.Pairwise.cons h.1 h.2
      · rw [if_neg h2]
        refine List.Pairwise.cons ?_ (ih h.2)
        intro y hy
        rcases mem_insertSortedUnique.mp hy with rfl | hy'
        · omega
        · exact h.1 y hy'

/-- `uniqueSorted` is strictly increasing. -/
theorem pairwise_uniqueSorted (l : List Nat) : (uniqueSorted l).Pairwise (· < ·) := by
  induction l with
  | nil => simp [uniqueSorted]
  | cons x xs ih => exact pairwise_insertSortedUnique ih

/-- `uniqueSorted` has the same members as its input. -/
theorem mem_uniqueSorted {y : Nat} {l : List Nat} : y ∈ uniqueSorted l ↔ y ∈ l := by
  induction l with
  | nil => simp [uniqueSorted]
  | cons x xs ih =>
    show y ∈ insertSortedUnique x (uniqueSorted xs) ↔ _
    rw [mem_insertSortedUnique, ih]
    simp [List.mem_cons]

/-- When the labels are exactly the values `0..k-1` (every label below
`k`, every cluster index used), `np.unique` returns `0..k-1` in order. -/
theorem uniqueSorted_eq_range {l : List Nat} {k : Nat}
    (hlt : ∀ y ∈ l, y < k) (hsurj : ∀ i, i < k → i ∈ l) :
    uniqueSorted l = List.range k := by
  haveI : IsAntisymm Nat (· < ·) :=
    ⟨fun a b h1 h2 => absurd h2 (not_lt.mpr (le_of_lt h1))⟩
  refine List.eq_of_perm_of_sorted ?_ (pairwise_uniqueSorted l) (List.pairwise_lt_range k)
  have h1 : (uniqueSorted l).Nodup :=
    List.Pairwise.nodup (pairwise_uniqueSorted l)
  have h2 : (List.range k).Nodup := List.nodup_range k
  rw [List.perm_ext_iff_of_nodup h1 h2]
  intro a
  rw [mem_uniqueSorted, List.mem_range]
  exact ⟨fun h => hlt a h, fun h => hsurj a h⟩

/-- A `filterMap` that never drops keeps the length. -/
theorem length_filterMap_all {α β : Type} (f : α → Option β) (l : List α)
    (h : ∀ x ∈ l, (f x).isSome) : (l.filterMap f).length = l.length := by
  induction l with
  | nil => rfl
  | cons x xs ih =>
    rw [List.filterMap_cons]
    have hx := h x (List.mem_cons_self x xs)
    match hfx : f x with
    | some b =>
      show (b :: List.filterMap f xs).length = (x :: xs).length
      simp only [List.length_cons]
      rw [ih (fun y hy => h y (List.mem_cons_of_mem x hy))]
    | none => rw [hfx] at hx; exact absurd hx (by simp)

/-- C6: the externally requested colour count is clamped to `[3,7]`
(`max(3, min(7, n_colors))`); when at least that many foreground pixels
exist, the effective cluster count handed to the clustering is exactly
that clamp (e.g. a request of 10 uses 7); whenever there are fewer
foreground pixels than the clamp (but at least one), the count is
instead reduced to the foreground pixel count, and — provided the
external clustering returns one centre per cluster and uses every
cluster label — the resulting palette size then equals the foreground
pixel count rather than the requested count, since each cluster holds at
least one of at most six pixels and so clears the 2% floor. -/
theorem C6_effective_count (kmeans : KMeansOracle) (image : Grid3) (mask : Grid) (n : Int)
    (hpos : 0 < (pixelsOf image mask).length) :
    ((3 : Int) ≤ max 3 (min 7 n) ∧ max 3 (min 7 n) ≤ 7) ∧
      (max 3 (min 7 n) ≤ ((pixelsOf image mask).length : Int) →
        effectiveK n (pixelsOf image mask).length = (max 3 (min 7 n)).toNat) ∧
      (((pixelsOf image mask).length : Int) < max 3 (min 7 n) →
        effectiveK n (pixelsOf image mask).length = (pixelsOf image mask).length) ∧
      (((pixelsOf image mask).length : Int) < max 3 (min 7 n) →
        ((kmeans (pixelsOf image mask) (pixelsOf image mask).length).1).length
            = (pixelsOf image mask).length →
        (∀ y ∈ (kmeans (pixelsOf image mask) (pixelsOf image mask).length).2,
            y < (pixelsOf image mask).length) →
        (∀ i, i < (pixelsOf image mask).length →
            i ∈ (kmeans (pixelsOf image mask) (pixelsOf image mask).length).2) →
        ((extract_dominant_colors kmeans image mask n).1).length
          = (pixelsOf image mask).length) := by
  have hclamp : (3 : Int) ≤ max 3 (min 7 n) ∧ max 3 (min 7 n) ≤ 7 := by
    constructor
    · exact le_max_left 3 (min 7 n)
    · rcases le_total 3 (min 7 n) with h | h
      · rw [max_eq_right h]
        exact min_le_left 7 n
      · rw [max_eq_left h]
        omega
  have heffFull : ((pixelsOf image mask).length : Int) < max 3 (min 7 n) →
      effectiveK n (pixelsOf image mask).length = (pixelsOf image mask).length := by
    intro hlt
    unfold effectiveK
    simp only []
    rw [if_pos hlt]
    omega
  refine ⟨hclamp, ?_, heffFull, ?_⟩
  · intro hge
    unfold effectiveK
    simp only []
    rw [if_neg (not_lt.mpr hge)]
  intro hlt hcenters hlabels hsurj
  have heff := heffFull hlt
  set pixels := pixelsOf image mask with hpix
  have h0 : ¬ pixels.length = 0 := by omega
  rw [extract_palette_eq kmeans image mask n 2 h0]
  show (sortedColorInfos (rawColorInfos kmeans pixels
      (effectiveK n pixels.length) 2)).length = pixels.length
  rw [heff]
  have hperm := List.mergeSort_perm (rawColorInfos kmeans pixels pixels.length 2)
    (fun a b => decide (b.percentage ≤ a.percentage))
  rw [show sortedColorInfos (rawColorInfos kmeans pixels pixels.length 2)
      = (rawColorInfos kmeans pixels pixels.length 2).mergeSort
        (fun a b => decide (b.percentage ≤ a.percentage)) from rfl]
  rw [hperm.length_eq]
  unfold rawColorInfos
  simp only []
  rw [length_filterMap_all _ _ ?keep]
  case keep =>
    intro ic hic
    obtain ⟨hidx, _⟩ := List.mem_enum hic
    rw [hcenters] at hidx
    have hcounts : countsOf (kmeans pixels pixels.length).2
        = (List.range pixels.length).map
          (fun v => (kmeans pixels pixels.length).2.count v) := by
      unfold countsOf
      rw [uniqueSorted_eq_range hlabels hsurj]
    have hcget : (countsOf (kmeans pixels pixels.length).2).getD ic.1 0
        = (kmeans pixels pixels.length).2.count ic.1 := by
      rw [hcounts]
      rw [List.getD_eq_getElem _ _ (by simp [hidx])]
      rw [List.getElem_map]
      rw [List.getElem_range]
    have hcpos : 0 < (kmeans pixels pixels.length).2.count ic.1 :=
      List.count_pos_iff.mpr (hsurj ic.1 hidx)
    have hkeep : (2 : ℚ) ≤ mkRat ((countsOf (kmeans pixels pixels.length).2).getD ic.1 0 * 100)
        pixels.length := by
      rw [hcget, Rat.mkRat_eq_div]
      have htot6 : pixels.length ≤ 6 := by omega
      have hc1 : (1 : ℚ) ≤ ((kmeans pixels pixels.length).2.count ic.1 : ℚ) := by
        exact_mod_cast hcpos
      have htotpos : (0 : ℚ) < (pixels.length : ℚ) := by exact_mod_cast hpos
      rw [le_div_iff htotpos]
      have h6 : ((pixels.length : ℚ)) ≤ 6 := by exact_mod_cast htot6
      push_cast
      nlinarith
    simp only [hkeep, if_pos]
    rfl
  rw [List.enum_length, hcenters]
/-- A 1×2 all-foreground scenario with two pixels, used as witness data:
requested count 5 clamps to 5, exceeding the 2 foreground pixels. -/
def imgC6 : Grid3 := ⟨1, 2, fun _ c => if c = 0 then (50, 100, 200) else (20, 20, 20)⟩

/-- All-set mask of the C6 witness scenario. -/
def maskC6 : Grid := ⟨1, 2, fun _ _ => 255⟩

/-- Clustering oracle of the C6 witness scenario: one centre per pixel,
labels `[0, 1]`. -/
def kmeansC6 : KMeansOracle := fun _ _ => ([(50, 100, 200), (20, 20, 20)], [0, 1])

/-- 1×8 all-foreground scenario for the abundant branch of the C6
witness: 8 foreground pixels, requested count 10. -/
def imgC6b : Grid3 := ⟨1, 8, fun _ _ => (50, 100, 200)⟩

/-- All-set mask of the second C6 witness scenario. -/
def maskC6b : Grid := ⟨1, 8, fun _ _ => 255⟩

/-- Witness for C6, both branches: a request of 10 with 8 foreground
pixels uses the clamp `max(3, min(7, 10)) = 7`; with 2 foreground pixels
and requested count 5 the effective count is 2 and the palette has 2
entries. -/
theorem C6_witness :
    (effectiveK 10 (pixelsOf imgC6b maskC6b).length = (max 3 (min 7 (10 : Int))).toNat ∧
      (max 3 (min 7 (10 : Int))).toNat = 7) ∧
    effectiveK 5 (pixelsOf imgC6 maskC6).length = (pixelsOf imgC6 maskC6).length ∧
    ((extract_dominant_colors kmeansC6 imgC6 maskC6 5).1).length
      = (pixelsOf imgC6 maskC6).length := by
  refine ⟨⟨?_, by decide⟩, ?_, ?_⟩
  · exact (C6_effective_count kmeansC6 imgC6b maskC6b 10 (by decide)).2.1 (by decide)
  · exact (C6_effective_count kmeansC6 imgC6 maskC6 5 (by decide)).2.2.1 (by decide)
  · exact (C6_effective_count kmeansC6 imgC6 maskC6 5 (by decide)).2.2.2 (by decide)
      (by decide) (by decide) (by decide)

/-- Witness for C7 at the concrete C4 scenario: the single palette
entry's percentage is its count over the foreground total times 100, and
clears the 2% floor. -/
theorem C7_witness :
    ciC4.percentage = (ciC4.count : ℚ) / ((pixelsOf imgC4 maskC4).length : ℚ) * 100 ∧
      2 ≤ ciC4.percentage := by
  refine (C7_palette_percentages kmeansC4 imgC4 maskC4 5).1 ciC4 ?_
  have hp : (extract_dominant_colors kmeansC4 imgC4 maskC4 5).1 = [ciC4] := paletteC4_eq
  rw [hp]
  exact List.mem_singleton_self ciC4

/-- C8: a blank (all-background) input yields an empty palette together
with the unchanged input image, without raising; the request handler then
fails with HTTP 500 and the colour-extraction message, which differs from
the segmentation-failure message — never a success response. -/
theorem C8_blank_input_rejected (kmeans : KMeansOracle) (potrace : PotraceOracle)
    (extractPaths : ExtractPathsOracle) (image : Grid3) (mask : Grid)
    (origW origH : Nat) (n : Int) (ps : Bool) (pt : String)
    (hblank : ∀ r, r < mask.h → ∀ c, c < mask.w → mask.px r c ≤ 128) :
    extract_dominant_colors kmeans image mask n = ([], image) ∧
      create_color_map kmeans image mask n = ([], image) ∧
      process_image kmeans potrace extractPaths image mask origW origH n ps pt
        = .err 500 "Failed to extract colors from image" ∧
      ("Failed to extract colors from image" : String)
        ≠ "Failed to segment image into color regions" := by
  have hpix : pixelsOf image mask = [] := by
    unfold pixelsOf
    rw [maskedPositions_eq_nil hblank]
    rfl
  have hextr : ∀ m : Int, extract_dominant_colors kmeans image mask m = ([], image) := by
    intro m
    simp only [extract_dominant_colors]
    rw [if_pos (by rw [hpix]; rfl)]
  have hcm : ∀ m : Int, create_color_map kmeans image mask m = ([], image) := by
    intro m
    rw [create_color_map_eq, hextr m]
    rfl
  refine ⟨hextr n, hcm n, ?_, by decide⟩
  simp only [process_image]
  rw [hcm (max 3 (min 7 n))]
  simp

/-- Blank 1×1 mask for the C8 witness. -/
def maskC8 : Grid := ⟨1, 1, fun _ _ => 0⟩

/-- 1×1 image for the C8 witness. -/
def imgC8 : Grid3 := ⟨1, 1, fun _ _ => (10, 10, 10)⟩

/-- Trivial clustering oracle (never reached in the C8 witness). -/
def kmeans0 : KMeansOracle := fun _ _ => ([], [])

/-- Always-failing tracer oracle. -/
def potrace0 : PotraceOracle := fun _ _ _ _ => none

/-- Trivial path-extraction oracle. -/
def extractPaths0 : ExtractPathsOracle := fun _ => ""

/-- Witness for C8 at an entirely blank 1×1 input. -/
theorem C8_witness :
    extract_dominant_colors kmeans0 imgC8 maskC8 5 = ([], imgC8) ∧
      create_color_map kmeans0 imgC8 maskC8 5 = ([], imgC8) ∧
      process_image kmeans0 potrace0 extractPaths0 imgC8 maskC8 1 1 5 true "0.10"
        = .err 500 "Failed to extract colors from image" ∧
      ("Failed to extract colors from image" : String)
        ≠ "Failed to segment image into color regions" :=
  C8_blank_input_rejected kmeans0 potrace0 extractPaths0 imgC8 maskC8 1 1 5 true "0.10"
    (fun _ _ _ _ => Nat.zero_le 128)
/-- The region-sort comparator is transitive. -/
theorem areaLe_trans : ∀ a b c : ColorRegion,
    (decide (b.mask.area ≤ a.mask.area)) = true →
    (decide (c.mask.area ≤ b.mask.area)) = true →
    (decide (c.mask.area ≤ a.mask.area)) = true := by
  intro a b c hab hbc
  rw [decide_eq_true_iff] at *
  exact le_trans hbc hab

/-- The region-sort comparator is total. -/
theorem areaLe_total : ∀ a b : ColorRegion,
    ((decide (b.mask.area ≤ a.mask.area)) || (decide (a.mask.area ≤ b.mask.area))) = true := by
  intro a b
  rcases Nat.le_total b.mask.area a.mask.area with h | h
  · rw [decide_eq_true h, Bool.true_or]
  · rw [decide_eq_true h, Bool.or_true]

/-- C3 (amended): the region list is sorted non-increasingly by the
set-pixel areas its masks have **at sort time** — after the 2×2
open/close of `extract_color_regions`, before `clean_boundaries` — since
the sort happens inside `extract_color_regions` and the boundary cleanup
mutates the masks afterwards (`segment_by_color` maps `clean_boundaries`
over the already-sorted list).  The vector document then emits one
colour-tagged group per region in exactly this list order (regions whose
trace yields no paths contribute nothing). -/
theorem C3_region_order_at_sort_time (image : Grid3) (mask : Grid)
    (color_palette : List ColorInfo) (ps : Bool) (potrace : PotraceOracle)
    (extractPaths : ExtractPathsOracle) (iw ihh : Nat) :
    (extract_color_regions image mask color_palette).Pairwise
        (fun a b => b.mask.area ≤ a.mask.area) ∧
      segment_by_color image mask color_palette ps
        = (extract_color_regions image mask color_palette).map
            (fun r => ⟨r.color_info, clean_boundaries r.mask ps⟩) ∧
      vectorize_regions potrace extractPaths (segment_by_color image mask color_palette ps)
          iw ihh ps
        = String.intercalate "\n" ([svgHeader iw ihh, "<g id=\"drawing\">"]
            ++ (segment_by_color image mask color_palette ps).flatMap
                (fun r => groupParts potrace extractPaths r iw ihh ps)
            ++ ["</g>", "</svg>"]) := by
  refine ⟨?_, rfl, rfl⟩
  unfold extract_color_regions
  have hs := List.sorted_mergeSort areaLe_trans areaLe_total
    (color_palette.filterMap (fun ci =>
      if 100 < (candidateMask image mask ci 10).area then
        some (⟨ci, candidateMask image mask ci 10⟩ : ColorRegion)
      else none))
  exact hs.imp (fun h => of_decide_eq_true h)

/-- The bar-pattern colour of the C3 counterexample (BGR (50,100,200)). -/
def ciA3 : ColorInfo := mkColorInfo (200, 100, 50) 100 50

/-- The block colour of the C3 counterexample (BGR (50,200,100)). -/
def ciB3 : ColorInfo := mkColorInfo (100, 200, 50) 102 50

/-- Does position (r,c) lie on the bar pattern of colour A?  Two units,
each two offset 2-pixel-tall bars whose diagonal junction the 2×2
closing bridges. -/
def inBarsA (r c : Nat) : Prop :=
  (2 ≤ r ∧ r ≤ 3 ∧ 2 ≤ c ∧ c ≤ 13) ∨ (3 ≤ r ∧ r ≤ 4 ∧ 15 ≤ c ∧ c ≤ 27) ∨
  (7 ≤ r ∧ r ≤ 8 ∧ 2 ≤ c ∧ c ≤ 13) ∨ (8 ≤ r ∧ r ≤ 9 ∧ 15 ≤ c ∧ c ≤ 27)

instance (r c : Nat) : Decidable (inBarsA r c) := by
  unfold inBarsA; infer_instance

/-- Does position (r,c) lie on the 6×17 block of colour B? -/
def inBlockB (r c : Nat) : Prop := 2 ≤ r ∧ r ≤ 7 ∧ 30 ≤ c ∧ c ≤ 46

instance (r c : Nat) : Decidable (inBlockB r c) := by
  unfold inBlockB; infer_instance

/-- The 12×49 flattened image of the C3 counterexample: colour A on the
bars, colour B on the block, white background. -/
def imgC3 : Grid3 :=
  ⟨12, 49, fun r c =>
    if inBarsA r c then (50, 100, 200)
    else if inBlockB r c then (50, 200, 100)
    else (255, 255, 255)⟩

/-- All-set drawing mask of the C3 counterexample. -/
def maskC3 : Grid := ⟨12, 49, fun _ _ => 255⟩

/-- Literal: the candidate mask of colour A (the bars), 100 px. -/
def litA0 : Grid := ⟨12, 49, fun r c => if inBarsA r c then 255 else 0⟩

/-- Literal: `erode2` of the bars. -/
def litA1 : Grid :=
  ⟨12, 49, fun r c =>
    if (r = 3 ∧ 3 ≤ c ∧ c ≤ 13) ∨ (r = 4 ∧ 16 ≤ c ∧ c ≤ 27) ∨
       (r = 8 ∧ 3 ≤ c ∧ c ≤ 13) ∨ (r = 9 ∧ 16 ≤ c ∧ c ≤ 27) then 255 else 0⟩

/-- Literal: `dilate2` of the bars. -/
def litA3 : Grid :=
  ⟨12, 49, fun r c =>
    if (r = 1 ∧ 1 ≤ c ∧ c ≤ 13) ∨ ((r = 2 ∨ r = 3) ∧ 1 ≤ c ∧ c ≤ 27) ∨
       (r = 4 ∧ 14 ≤ c ∧ c ≤ 27) ∨ (r = 6 ∧ 1 ≤ c ∧ c ≤ 13) ∨
       ((r = 7 ∨ r = 8) ∧ 1 ≤ c ∧ c ≤ 27) ∨ (r = 9 ∧ 14 ≤ c ∧ c ≤ 27)
    then 255 else 0⟩

/-- Literal: the post-close mask of colour A — the bars plus the two
bridge pixels (3,14) and (8,14); 102 px. -/
def litA4 : Grid :=
  ⟨12, 49, fun r c =>
    if (r = 2 ∧ 2 ≤ c ∧ c ≤ 13) ∨ (r = 3 ∧ 2 ≤ c ∧ c ≤ 27) ∨
       (r = 4 ∧ 15 ≤ c ∧ c ≤ 27) ∨ (r = 7 ∧ 2 ≤ c ∧ c ≤ 13) ∨
       (r = 8 ∧ 2 ≤ c ∧ c ≤ 27) ∨ (r = 9 ∧ 15 ≤ c ∧ c ≤ 27) then 255 else 0⟩

/-- Literal: the candidate mask of colour B (the 6×17 block), 102 px. -/
def litB0 : Grid := ⟨12, 49, fun r c => if inBlockB r c then 255 else 0⟩

/-- Literal: `erode2` of the block. -/
def litB1 : Grid :=
  ⟨12, 49, fun r c => if 3 ≤ r ∧ r ≤ 7 ∧ 31 ≤ c ∧ c ≤ 46 then 255 else 0⟩

/-- Literal: `dilate2` of the block. -/
def litB3 : Grid :=
  ⟨12, 49, fun r c => if 1 ≤ r ∧ r ≤ 7 ∧ 29 ≤ c ∧ c ≤ 46 then 255 else 0⟩

theorem candA3_eqOn : (colorCandidate imgC3 maskC3 ciA3 10).eqOn litA0 := Grid.eqOn_of_eqOnB (by rfl)

theorem erodeA0_eqOn : (erode2 litA0).eqOn litA1 := Grid.eqOn_of_eqOnB (by rfl)

theorem dilateA1_eqOn : (dilate2 litA1).eqOn litA0 := Grid.eqOn_of_eqOnB (by rfl)

theorem dilateA0_eqOn : (dilate2 litA0).eqOn litA3 := Grid.eqOn_of_eqOnB (by rfl)

theorem erodeA3_eqOn : (erode2 litA3).eqOn litA4 := Grid.eqOn_of_eqOnB (by rfl)

theorem erodeA4_eqOn : (erode2 litA4).eqOn litA1 := Grid.eqOn_of_eqOnB (by rfl)

theorem candB3_eqOn : (colorCandidate imgC3 maskC3 ciB3 10).eqOn litB0 := Grid.eqOn_of_eqOnB (by rfl)

theorem erodeB0_eqOn : (erode2 litB0).eqOn litB1 := Grid.eqOn_of_eqOnB (by rfl)

theorem dilateB1_eqOn : (dilate2 litB1).eqOn litB0 := Grid.eqOn_of_eqOnB (by rfl)

theorem dilateB0_eqOn : (dilate2 litB0).eqOn litB3 := Grid.eqOn_of_eqOnB (by rfl)

theorem erodeB3_eqOn : (erode2 litB3).eqOn litB0 := Grid.eqOn_of_eqOnB (by rfl)

/-- The A-colour open stage equals the bars. -/
theorem openA3_eqOn : (preMask imgC3 maskC3 ciA3 10).eqOn litA0 :=
  Grid.eqOn_trans (eqOn_dilate2 (Grid.eqOn_trans (eqOn_erode2 candA3_eqOn) erodeA0_eqOn))
    dilateA1_eqOn

/-- The A-colour close∘open stage equals bars-plus-bridges (102 px). -/
theorem closeA3_eqOn : (candidateMask imgC3 maskC3 ciA3 10).eqOn litA4 :=
  Grid.eqOn_trans (eqOn_erode2 (Grid.eqOn_trans (eqOn_dilate2 openA3_eqOn) dilateA0_eqOn))
    erodeA3_eqOn

/-- Style-preserving cleanup of the A region equals the bars (100 px). -/
theorem cleanA3_eqOn : (morphOpen2 (candidateMask imgC3 maskC3 ciA3 10)).eqOn litA0 :=
  Grid.eqOn_trans (eqOn_dilate2 (Grid.eqOn_trans (eqOn_erode2 closeA3_eqOn) erodeA4_eqOn))
    dilateA1_eqOn

/-- The B-colour open stage equals the block. -/
theorem openB3_eqOn : (preMask imgC3 maskC3 ciB3 10).eqOn litB0 :=
  Grid.eqOn_trans (eqOn_dilate2 (Grid.eqOn_trans (eqOn_erode2 candB3_eqOn) erodeB0_eqOn))
    dilateB1_eqOn

/-- The B-colour close∘open stage equals the block (102 px). -/
theorem closeB3_eqOn : (candidateMask imgC3 maskC3 ciB3 10).eqOn litB0 :=
  Grid.eqOn_trans (eqOn_erode2 (Grid.eqOn_trans (eqOn_dilate2 openB3_eqOn) dilateB0_eqOn))
    erodeB3_eqOn

/-- Style-preserving cleanup of the B region equals the block (102 px). -/
theorem cleanB3_eqOn : (morphOpen2 (candidateMask imgC3 maskC3 ciB3 10)).eqOn litB0 :=
  Grid.eqOn_trans (eqOn_dilate2 (Grid.eqOn_trans (eqOn_erode2 closeB3_eqOn) erodeB0_eqOn))
    dilateB1_eqOn

theorem areaA3_sort : (candidateMask imgC3 maskC3 ciA3 10).area = 102 :=
  (Grid.eqOn_area closeA3_eqOn).trans (by rfl)

theorem areaB3_sort : (candidateMask imgC3 maskC3 ciB3 10).area = 102 :=
  (Grid.eqOn_area closeB3_eqOn).trans (by rfl)

theorem areaA3_final : (clean_boundaries (candidateMask imgC3 maskC3 ciA3 10) true).area = 100 :=
  (Grid.eqOn_area cleanA3_eqOn).trans (by rfl)

theorem areaB3_final : (clean_boundaries (candidateMask imgC3 maskC3 ciB3 10) true).area = 102 :=
  (Grid.eqOn_area cleanB3_eqOn).trans (by rfl)

/-- A throwaway region used as `getD` default. -/
def defaultRegion : ColorRegion := ⟨mkColorInfo (0, 0, 0) 0 0, ⟨0, 0, fun _ _ => 0⟩⟩

/-- The segmentation result of the C3 counterexample, explicitly. -/
theorem segC3_eq :
    segment_by_color imgC3 maskC3 [ciA3, ciB3] true =
      [⟨ciA3, clean_boundaries (candidateMask imgC3 maskC3 ciA3 10) true⟩,
       ⟨ciB3, clean_boundaries (candidateMask imgC3 maskC3 ciB3 10) true⟩] := by
  have hgtA : 100 < (candidateMask imgC3 maskC3 ciA3 10).area := by
    rw [areaA3_sort]
    omega
  have hgtB : 100 < (candidateMask imgC3 maskC3 ciB3 10).area := by
    rw [areaB3_sort]
    omega
  have hfA : (fun ci =>
      let m := candidateMask imgC3 maskC3 ci 10
      if 100 < m.area then some (⟨ci, m⟩ : ColorRegion) else none) ciA3 =
      some ⟨ciA3, candidateMask imgC3 maskC3 ciA3 10⟩ := by
    show (if 100 < (candidateMask imgC3 maskC3 ciA3 10).area then
      some (⟨ciA3, candidateMask imgC3 maskC3 ciA3 10⟩ : ColorRegion) else none) = _
    rw [if_pos hgtA]
  have hfB : (fun ci =>
      let m := candidateMask imgC3 maskC3 ci 10
      if 100 < m.area then some (⟨ci, m⟩ : ColorRegion) else none) ciB3 =
      some ⟨ciB3, candidateMask imgC3 maskC3 ciB3 10⟩ := by
    show (if 100 < (candidateMask imgC3 maskC3 ciB3 10).area then
      some (⟨ciB3, candidateMask imgC3 maskC3 ciB3 10⟩ : ColorRegion) else none) = _
    rw [if_pos hgtB]
  have h102 : (candidateMask imgC3 maskC3 ciB3 10).area
      ≤ (candidateMask imgC3 maskC3 ciA3 10).area := by
    have hA := areaA3_sort
    have hB := areaB3_sort
    omega
  have hle : ((fun a b => decide ((b : ColorRegion).mask.area ≤ a.mask.area))
      (⟨ciA3, candidateMask imgC3 maskC3 ciA3 10⟩ : ColorRegion)
      ⟨ciB3, candidateMask imgC3 maskC3 ciB3 10⟩) = true := by
    show decide ((candidateMask imgC3 maskC3 ciB3 10).area
        ≤ (candidateMask imgC3 maskC3 ciA3 10).area) = true
    exact decide_eq_true h102
  have hms : ([⟨ciA3, candidateMask imgC3 maskC3 ciA3 10⟩,
      (⟨ciB3, candidateMask imgC3 maskC3 ciB3 10⟩ : ColorRegion)].mergeSort
        (fun a b => decide (b.mask.area ≤ a.mask.area))) =
      [⟨ciA3, candidateMask imgC3 maskC3 ciA3 10⟩,
       ⟨ciB3, candidateMask imgC3 maskC3 ciB3 10⟩] := by
    refine List.mergeSort_of_sorted ?_
    refine List.Pairwise.cons ?_ (List.Pairwise.cons (fun b hb => absurd hb
      (List.not_mem_nil _)) List.Pairwise.nil)
    intro b hb
    rw [List.mem_singleton] at hb
    subst hb
    exact hle
  have hstepA : List.filterMap (fun ci =>
      let m := candidateMask imgC3 maskC3 ci 10
      if 100 < m.area then some (⟨ci, m⟩ : ColorRegion) else none) [ciA3, ciB3] =
      (⟨ciA3, candidateMask imgC3 maskC3 ciA3 10⟩ : ColorRegion) ::
        List.filterMap (fun ci =>
          let m := candidateMask imgC3 maskC3 ci 10
          if 100 < m.area then some (⟨ci, m⟩ : ColorRegion) else none) [ciB3] :=
    List.filterMap_cons_some hfA
  have hstepB : List.filterMap (fun ci =>
      let m := candidateMask imgC3 maskC3 ci 10
      if 100 < m.area then some (⟨ci, m⟩ : ColorRegion) else none) [ciB3] =
      (⟨ciB3, candidateMask imgC3 maskC3 ciB3 10⟩ : ColorRegion) ::
        List.filterMap (fun ci =>
          let m := candidateMask imgC3 maskC3 ci 10
          if 100 < m.area then some (⟨ci, m⟩ : ColorRegion) else none) [] :=
    List.filterMap_cons_some hfB
  unfold segment_by_color extract_color_regions
  rw [hstepA, hstepB, List.filterMap_nil, hms]
  rfl

/-- Counterexample to C3 as stated: segmentation returns the regions in
order [A, B] (their masks tie at 102 set pixels at sort time), but after
boundary cleanup the final masks have areas 100 and 102 — the list is
not ordered non-increasingly by final-mask area. -/
theorem C3_counterexample :
    (segment_by_color imgC3 maskC3 [ciA3, ciB3] true).length = 2 ∧
      ((segment_by_color imgC3 maskC3 [ciA3, ciB3] true).getD 0 defaultRegion).mask.area
        = 100 ∧
      ((segment_by_color imgC3 maskC3 [ciA3, ciB3] true).getD 1 defaultRegion).mask.area
        = 102 := by
  rw [segC3_eq]
  exact ⟨rfl, areaA3_final, areaB3_final⟩

/-! ### The C1 scenario: a successful run whose document has no paths -/

/-- Clustering oracle for the C1 scenario: one centre at the uniform
colour, all 102 foreground pixels labelled 0. -/
def kmeansC1 : KMeansOracle := fun _ _ => ([(50, 100, 200)], List.replicate 102 0)

/-- The palette computed in the C1 scenario. -/
theorem paletteC1_eq : (extract_dominant_colors kmeansC1 imgC2 allC2 5).1 = [ciC2] := by
  rw [extract_palette_eq kmeansC1 imgC2 allC2 5 2 (by decide)]
  have hraw : rawColorInfos kmeansC1 (pixelsOf imgC2 allC2)
      (effectiveK 5 (pixelsOf imgC2 allC2).length) 2 = [ciC2] := by decide
  rw [hraw]
  exact List.mergeSort_singleton _

/-- The flattened image of the C1 scenario. -/
def flatC1 : Grid3 := flatten_colors imgC2 allC2 [ciC2]

theorem candC1_eqOn : (colorCandidate flatC1 allC2 ciC2 10).eqOn allC2 :=
  Grid.eqOn_of_eqOnB (by rfl)

/-- The 2×2 opening leaves the all-set C1 candidate unchanged. -/
theorem preC1_eqOn : (preMask flatC1 allC2 ciC2 10).eqOn allC2 :=
  Grid.eqOn_trans (eqOn_dilate2 (Grid.eqOn_trans (eqOn_erode2 candC1_eqOn) erodeAllC2_eqOn))
    dilateAllC2_eqOn

/-- The C1 candidate mask after the 2×2 closing is all-set. -/
theorem closeC1_eqOn : (candidateMask flatC1 allC2 ciC2 10).eqOn allC2 :=
  Grid.eqOn_trans (eqOn_erode2 (Grid.eqOn_trans (eqOn_dilate2 preC1_eqOn) dilateAllC2_eqOn))
    erodeAllC2_eqOn

theorem areaC1 : (candidateMask flatC1 allC2 ciC2 10).area = 102 :=
  (Grid.eqOn_area closeC1_eqOn).trans (by rfl)

/-- The single region segmented in the C1 scenario. -/
def regionC1 : ColorRegion :=
  ⟨ciC2, clean_boundaries (candidateMask flatC1 allC2 ciC2 10) true⟩

/-- Segmentation of the C1 scenario: exactly one region. -/
theorem segC1_eq : segment_by_color flatC1 allC2 [ciC2] true = [regionC1] := by
  have hgt : 100 < (candidateMask flatC1 allC2 ciC2 10).area := by
    rw [areaC1]
    omega
  have hf : (fun ci =>
      let m := candidateMask flatC1 allC2 ci 10
      if 100 < m.area then some (⟨ci, m⟩ : ColorRegion) else none) ciC2 =
      some ⟨ciC2, candidateMask flatC1 allC2 ciC2 10⟩ := by
    show (if 100 < (candidateMask flatC1 allC2 ciC2 10).area then
      some (⟨ciC2, candidateMask flatC1 allC2 ciC2 10⟩ : ColorRegion) else none) = _
    rw [if_pos hgt]
  have hstep : List.filterMap (fun ci =>
      let m := candidateMask flatC1 allC2 ci 10
      if 100 < m.area then some (⟨ci, m⟩ : ColorRegion) else none) [ciC2] =
      (⟨ciC2, candidateMask flatC1 allC2 ciC2 10⟩ : ColorRegion) ::
        List.filterMap (fun ci =>
          let m := candidateMask flatC1 allC2 ci 10
          if 100 < m.area then some (⟨ci, m⟩ : ColorRegion) else none) [] :=
    List.filterMap_cons_some hf
  unfold segment_by_color extract_color_regions
  rw [hstep, List.filterMap_nil, List.mergeSort_singleton]
  rfl

/-- The success payload the C1 scenario produces. -/
def dC1 : SuccessData :=
  ⟨postprocess_svg (vectorize_regions potrace0 extractPaths0 [regionC1] 17 6 true)
      [ciC2] 17 6 "authentic" "0.10",
    [ciC2], 17, 6, 17, 6, "0.10", 1, 1, "authentic"⟩

/-- The C1 scenario's full handler run, explicitly: every trace fails
(the tracer oracle always reports failure), yet the handler returns a 200
success response — the empty document wrapper built by
`vectorize_regions` is 110 characters long, so the `len(svg) < 100` guard
does not fire. -/
theorem respC1_eq :
    process_image kmeansC1 potrace0 extractPaths0 imgC2 allC2 17 6 5 true "0.10"
      = .ok dC1 := by
  have hclamp : max 3 (min 7 (5 : Int)) = 5 := by decide
  have hcm1 : (create_color_map kmeansC1 imgC2 allC2 5).1 = [ciC2] := by
    rw [create_color_map_eq]
    show (extract_dominant_colors kmeansC1 imgC2 allC2 5).1 = [ciC2]
    exact paletteC1_eq
  have hcm2 : (create_color_map kmeansC1 imgC2 allC2 5).2 = flatC1 := by
    rw [create_color_map_eq]
    show flatten_colors imgC2 allC2 (extract_dominant_colors kmeansC1 imgC2 allC2 5).1
        = flatC1
    rw [paletteC1_eq]
    rfl
  have hne : ¬ (vectorize_regions potrace0 extractPaths0 [regionC1] 17 6 true = "" ∨
      (vectorize_regions potrace0 extractPaths0 [regionC1] 17 6 true).length < 100) := by
    decide
  simp only [process_image]
  rw [hclamp, hcm1, hcm2]
  rw [show Grid3.w imgC2 = 17 from rfl, show Grid3.h imgC2 = 6 from rfl]
  rw [if_neg (by decide : ¬ ([ciC2] : List ColorInfo).isEmpty = true)]
  rw [segC1_eq]
  rw [if_neg (by decide : ¬ ([regionC1] : List ColorRegion).isEmpty = true)]
  rw [if_neg hne]
  rfl

/-- C1: refuted by the code — when every region's trace fails, the
composited document is just the empty wrapper
(`<svg …><g id="drawing"></g></svg>`, no path content), yet the handler
returns a success response: the wrapper alone is at least 108 characters,
so the `len(svg_content) < 100` guard can never reject it.  In this
concrete run the response is a success whose document contains no
`<path` element and no colour group at all. -/
theorem C1_zero_path_success :
    (process_image kmeansC1 potrace0 extractPaths0 imgC2 allC2 17 6 5 true "0.10").isOk
        = true ∧
      hasSub "<path".toList
        ((process_image kmeansC1 potrace0 extractPaths0 imgC2 allC2 17 6 5 true
          "0.10").payload.svg).toList = false ∧
      countSub "<g fill=".toList
        ((process_image kmeansC1 potrace0 extractPaths0 imgC2 allC2 17 6 5 true
          "0.10").payload.svg).toList = 0 := by
  rw [respC1_eq]
  refine ⟨rfl, by decide, by decide⟩

/-! ### The C5 scenario: one trace succeeds, one fails -/

/-- 6×34 two-colour image: columns 0–16 the A colour (BGR (50,100,200)),
columns 17–33 the B colour (BGR (200,50,50)). -/
def imgC5 : Grid3 := ⟨6, 34, fun _ c => if c ≤ 16 then (50, 100, 200) else (200, 50, 50)⟩

/-- All-set 6×34 drawing mask for the C5 scenario. -/
def maskC5 : Grid := ⟨6, 34, fun _ _ => 255⟩

/-- Clustering oracle for the C5 scenario: the two exact colours, with
the row-major labels of the two half-planes. -/
def kmeansC5 : KMeansOracle := fun _ _ =>
  ([(50, 100, 200), (200, 50, 50)],
    (List.range 204).map (fun i => if i % 34 ≤ 16 then 0 else 1))

/-- First palette entry of the C5 scenario (rgb (200,100,50), 50%). -/
def ciA5 : ColorInfo := mkColorInfo (200, 100, 50) 102 50

/-- Second palette entry of the C5 scenario (rgb (50,50,200), 50%). -/
def ciB5 : ColorInfo := mkColorInfo (50, 50, 200) 102 50

/-- The palette computed in the C5 scenario. -/
theorem paletteC5_eq : (extract_dominant_colors kmeansC5 imgC5 maskC5 5).1 = [ciA5, ciB5] := by
  rw [extract_palette_eq kmeansC5 imgC5 maskC5 5 2 (by decide)]
  have hraw : rawColorInfos kmeansC5 (pixelsOf imgC5 maskC5)
      (effectiveK 5 (pixelsOf imgC5 maskC5).length) 2 = [ciA5, ciB5] := by decide
  rw [hraw]
  show [ciA5, ciB5].mergeSort (fun a b => decide (b.percentage ≤ a.percentage))
      = [ciA5, ciB5]
  refine List.mergeSort_of_sorted ?_
  refine List.Pairwise.cons ?_ (List.Pairwise.cons (fun b hb => absurd hb
    (List.not_mem_nil _)) List.Pairwise.nil)
  intro b hb
  rw [List.mem_singleton] at hb
  subst hb
  show decide (ciB5.percentage ≤ ciA5.percentage) = true
  decide

/-- Literal: the left half-plane (columns 0–16) of the C5 scenario. -/
def blockA5 : Grid := ⟨6, 34, fun _ c => if c ≤ 16 then 255 else 0⟩

/-- Literal: the right half-plane (columns 17–33) of the C5 scenario. -/
def blockB5 : Grid := ⟨6, 34, fun _ c => if 17 ≤ c then 255 else 0⟩

/-- Literal: the right half-plane eroded once (columns 18–33). -/
def erodedB5 : Grid := ⟨6, 34, fun _ c => if 18 ≤ c then 255 else 0⟩

/-- Literal: the right half-plane dilated once (columns 16–33). -/
def dilatedB5 : Grid := ⟨6, 34, fun _ c => if 16 ≤ c then 255 else 0⟩

/-- The flattened image of the C5 scenario. -/
def flatC5 : Grid3 := flatten_colors imgC5 maskC5 [ciA5, ciB5]

theorem candA5_eqOn : (colorCandidate flatC5 maskC5 ciA5 10).eqOn blockA5 :=
  Grid.eqOn_of_eqOnB (by rfl)

theorem candB5_eqOn : (colorCandidate flatC5 maskC5 ciB5 10).eqOn blockB5 :=
  Grid.eqOn_of_eqOnB (by rfl)

theorem erodeA5_eqOn : (erode2 blockA5).eqOn blockA5 := Grid.eqOn_of_eqOnB (by rfl)

theorem dilateA5_eqOn : (dilate2 blockA5).eqOn blockA5 := Grid.eqOn_of_eqOnB (by rfl)

theorem erodeB5_eqOn : (erode2 blockB5).eqOn erodedB5 := Grid.eqOn_of_eqOnB (by rfl)

theorem dilateEB5_eqOn : (dilate2 erodedB5).eqOn blockB5 := Grid.eqOn_of_eqOnB (by rfl)

theorem dilateB5_eqOn : (dilate2 blockB5).eqOn dilatedB5 := Grid.eqOn_of_eqOnB (by rfl)

theorem erodeDB5_eqOn : (erode2 dilatedB5).eqOn blockB5 := Grid.eqOn_of_eqOnB (by rfl)

/-- The A-colour open stage of C5 equals the left half-plane. -/
theorem openA5_eqOn : (preMask flatC5 maskC5 ciA5 10).eqOn blockA5 :=
  Grid.eqOn_trans (eqOn_dilate2 (Grid.eqOn_trans (eqOn_erode2 candA5_eqOn) erodeA5_eqOn))
    dilateA5_eqOn

/-- The A-colour close∘open stage of C5 equals the left half-plane. -/
theorem closeA5_eqOn : (candidateMask flatC5 maskC5 ciA5 10).eqOn blockA5 :=
  Grid.eqOn_trans (eqOn_erode2 (Grid.eqOn_trans (eqOn_dilate2 openA5_eqOn) dilateA5_eqOn))
    erodeA5_eqOn

theorem areaA5 : (candidateMask flatC5 maskC5 ciA5 10).area = 102 :=
  (Grid.eqOn_area closeA5_eqOn).trans (by rfl)

/-- The B-colour open stage of C5 equals the right half-plane. -/
theorem openB5_eqOn : (preMask flatC5 maskC5 ciB5 10).eqOn blockB5 :=
  Grid.eqOn_trans (eqOn_dilate2 (Grid.eqOn_trans (eqOn_erode2 candB5_eqOn) erodeB5_eqOn))
    dilateEB5_eqOn

/-- The B-colour close∘open stage of C5 equals the right half-plane. -/
theorem closeB5_eqOn : (candidateMask flatC5 maskC5 ciB5 10).eqOn blockB5 :=
  Grid.eqOn_trans (eqOn_erode2 (Grid.eqOn_trans (eqOn_dilate2 openB5_eqOn) dilateB5_eqOn))
    erodeDB5_eqOn

theorem areaB5 : (candidateMask flatC5 maskC5 ciB5 10).area = 102 :=
  (Grid.eqOn_area closeB5_eqOn).trans (by rfl)

/-- The first region segmented in the C5 scenario. -/
def rA5 : ColorRegion := ⟨ciA5, clean_boundaries (candidateMask flatC5 maskC5 ciA5 10) true⟩

/-- The second region segmented in the C5 scenario. -/
def rB5 : ColorRegion := ⟨ciB5, clean_boundaries (candidateMask flatC5 maskC5 ciB5 10) true⟩

/-- Segmentation of the C5 scenario: the two regions, A first. -/
theorem segC5_eq : segment_by_color flatC5 maskC5 [ciA5, ciB5] true = [rA5, rB5] := by
  have hgtA : 100 < (candidateMask flatC5 maskC5 ciA5 10).area := by
    rw [areaA5]
    omega
  have hgtB : 100 < (candidateMask flatC5 maskC5 ciB5 10).area := by
    rw [areaB5]
    omega
  have hfA : (fun ci =>
      let m := candidateMask flatC5 maskC5 ci 10
      if 100 < m.area then some (⟨ci, m⟩ : ColorRegion) else none) ciA5 =
      some ⟨ciA5, candidateMask flatC5 maskC5 ciA5 10⟩ := by
    show (if 100 < (candidateMask flatC5 maskC5 ciA5 10).area then
      some (⟨ciA5, candidateMask flatC5 maskC5 ciA5 10⟩ : ColorRegion) else none) = _
    rw [if_pos hgtA]
  have hfB : (fun ci =>
      let m := candidateMask flatC5 maskC5 ci 10
      if 100 < m.area then some (⟨ci, m⟩ : ColorRegion) else none) ciB5 =
      some ⟨ciB5, candidateMask flatC5 maskC5 ciB5 10⟩ := by
    show (if 100 < (candidateMask flatC5 maskC5 ciB5 10).area then
      some (⟨ciB5, candidateMask flatC5 maskC5 ciB5 10⟩ : ColorRegion) else none) = _
    rw [if_pos hgtB]
  have h102 : (candidateMask flatC5 maskC5 ciB5 10).area
      ≤ (candidateMask flatC5 maskC5 ciA5 10).area := by
    have hA := areaA5
    have hB := areaB5
    omega
  have hle : ((fun a b => decide ((b : ColorRegion).mask.area ≤ a.mask.area))
      (⟨ciA5, candidateMask flatC5 maskC5 ciA5 10⟩ : ColorRegion)
      ⟨ciB5, candidateMask flatC5 maskC5 ciB5 10⟩) = true := by
    show decide ((candidateMask flatC5 maskC5 ciB5 10).area
        ≤ (candidateMask flatC5 maskC5 ciA5 10).area) = true
    exact decide_eq_true h102
  have hms : ([⟨ciA5, candidateMask flatC5 maskC5 ciA5 10⟩,
      (⟨ciB5, candidateMask flatC5 maskC5 ciB5 10⟩ : ColorRegion)].mergeSort
        (fun a b => decide (b.mask.area ≤ a.mask.area))) =
      [⟨ciA5, candidateMask flatC5 maskC5 ciA5 10⟩,
       ⟨ciB5, candidateMask flatC5 maskC5 ciB5 10⟩] := by
    refine List.mergeSort_of_sorted ?_
    refine List.Pairwise.cons ?_ (List.Pairwise.cons (fun b hb => absurd hb
      (List.not_mem_nil _)) List.Pairwise.nil)
    intro b hb
    rw [List.mem_singleton] at hb
    subst hb
    exact hle
  have hstepA : List.filterMap (fun ci =>
      let m := candidateMask flatC5 maskC5 ci 10
      if 100 < m.area then some (⟨ci, m⟩ : ColorRegion) else none) [ciA5, ciB5] =
      (⟨ciA5, candidateMask flatC5 maskC5 ciA5 10⟩ : ColorRegion) ::
        List.filterMap (fun ci =>
          let m := candidateMask flatC5 maskC5 ci 10
          if 100 < m.area then some (⟨ci, m⟩ : ColorRegion) else none) [ciB5] :=
    List.filterMap_cons_some hfA
  have hstepB : List.filterMap (fun ci =>
      let m := candidateMask flatC5 maskC5 ci 10
      if 100 < m.area then some (⟨ci, m⟩ : ColorRegion) else none) [ciB5] =
      (⟨ciB5, candidateMask flatC5 maskC5 ciB5 10⟩ : ColorRegion) ::
        List.filterMap (fun ci =>
          let m := candidateMask flatC5 maskC5 ci 10
          if 100 < m.area then some (⟨ci, m⟩ : ColorRegion) else none) [] :=
    List.filterMap_cons_some hfB
  unfold segment_by_color extract_color_regions
  rw [hstepA, hstepB, List.filterMap_nil, hms]
  rfl

/-- Tracer oracle for the C5 scenario: the trace of the A colour
succeeds, every other trace fails (timeout/process error). -/
def potraceC5 : PotraceOracle :=
  fun _ hex _ _ => if hex = "#c86432" then some "TRACEA" else none

/-- Path-extraction oracle for the C5 scenario: the successful trace
yields one path element. -/
def extractPathsC5 : ExtractPathsOracle :=
  fun s => if s = "TRACEA" then "<path fill=\"black\" d=\"M0 0h17v6H0z\"/>" else ""

/-- The success payload the C5 scenario produces. -/
def dC5 : SuccessData :=
  ⟨postprocess_svg (vectorize_regions potraceC5 extractPathsC5 [rA5, rB5] 34 6 true)
      [ciA5, ciB5] 34 6 "authentic" "0.10",
    [ciA5, ciB5], 34, 6, 34, 6, "0.10", 2, 2, "authentic"⟩

/-- The C5 scenario's full handler run, explicitly. -/
theorem respC5_eq :
    process_image kmeansC5 potraceC5 extractPathsC5 imgC5 maskC5 34 6 5 true "0.10"
      = .ok dC5 := by
  have hclamp : max 3 (min 7 (5 : Int)) = 5 := by decide
  have hcm1 : (create_color_map kmeansC5 imgC5 maskC5 5).1 = [ciA5, ciB5] := by
    rw [create_color_map_eq]
    show (extract_dominant_colors kmeansC5 imgC5 maskC5 5).1 = [ciA5, ciB5]
    exact paletteC5_eq
  have hcm2 : (create_color_map kmeansC5 imgC5 maskC5 5).2 = flatC5 := by
    rw [create_color_map_eq]
    show flatten_colors imgC5 maskC5 (extract_dominant_colors kmeansC5 imgC5 maskC5 5).1
        = flatC5
    rw [paletteC5_eq]
    rfl
  have hne : ¬ (vectorize_regions potraceC5 extractPathsC5 [rA5, rB5] 34 6 true = "" ∨
      (vectorize_regions potraceC5 extractPathsC5 [rA5, rB5] 34 6 true).length < 100) := by
    decide
  simp only [process_image]
  rw [hclamp, hcm1, hcm2]
  rw [show Grid3.w imgC5 = 34 from rfl, show Grid3.h imgC5 = 6 from rfl]
  rw [if_neg (by decide : ¬ ([ciA5, ciB5] : List ColorInfo).isEmpty = true)]
  rw [segC5_eq]
  rw [if_neg (by decide : ¬ ([rA5, rB5] : List ColorRegion).isEmpty = true)]
  rw [if_neg hne]
  rfl

/-- Counterexample to C5 as stated: the B region's trace fails and
contributes no group — the success document contains exactly one colour
group (the A region's) — yet `regionCount` in the response metadata is 2,
the number of regions segmentation produced, not the number of regions
that contributed path content. -/
theorem C5_counterexample :
    (process_image kmeansC5 potraceC5 extractPathsC5 imgC5 maskC5 34 6 5 true "0.10").isOk
        = true ∧
      (process_image kmeansC5 potraceC5 extractPathsC5 imgC5 maskC5 34 6 5 true
          "0.10").payload.regionCount = 2 ∧
      countSub "<g fill=".toList
        ((process_image kmeansC5 potraceC5 extractPathsC5 imgC5 maskC5 34 6 5 true
          "0.10").payload.svg).toList = 1 ∧
      hasSub "<path".toList
        ((process_image kmeansC5 potraceC5 extractPathsC5 imgC5 maskC5 34 6 5 true
          "0.10").payload.svg).toList = true := by
  rw [respC5_eq]
  refine ⟨rfl, rfl, by decide, by decide⟩

/-- C5 (amended): in any success response, a region whose trace fails
(`vectorize_mask_to_svg` returns `''`) contributes no group to the
document, and the document is exactly the wrapper plus each segmented
region's contribution in order — the other regions' groups are all
present; but `regionCount` in the metadata equals the number of regions
segmentation produced (`len(color_regions)`), not the number of regions
that contributed path content. -/
theorem C5_region_soft_failure (kmeans : KMeansOracle) (potrace : PotraceOracle)
    (extractPaths : ExtractPathsOracle) (image : Grid3) (mask : Grid)
    (ow oh : Nat) (n : Int) (ps : Bool) (pt : String) (d : SuccessData)
    (h : process_image kmeans potrace extractPaths image mask ow oh n ps pt = .ok d) :
    d.regionCount = (segment_by_color
        (create_color_map kmeans image mask (max 3 (min 7 n))).2 mask
        (create_color_map kmeans image mask (max 3 (min 7 n))).1 ps).length ∧
    (∀ r : ColorRegion, vectorize_mask_to_svg potrace r.mask r.color_info.hex
        image.w image.h ps = "" →
      groupParts potrace extractPaths r image.w image.h ps = []) ∧
    d.svg = postprocess_svg (String.intercalate "\n"
        ([svgHeader image.w image.h, "<g id=\"drawing\">"]
          ++ (segment_by_color (create_color_map kmeans image mask (max 3 (min 7 n))).2
              mask (create_color_map kmeans image mask (max 3 (min 7 n))).1 ps).flatMap
              (fun r => groupParts potrace extractPaths r image.w image.h ps)
          ++ ["</g>", "</svg>"]))
        (create_color_map kmeans image mask (max 3 (min 7 n))).1 ow oh
        (if ps then "authentic" else "clean") pt := by
  have hgroup : ∀ r : ColorRegion, vectorize_mask_to_svg potrace r.mask r.color_info.hex
      image.w image.h ps = "" →
      groupParts potrace extractPaths r image.w image.h ps = [] := by
    intro r heq
    simp only [groupParts]
    rw [heq]
    rw [if_neg (fun hc => hc rfl)]
  simp only [process_image] at h
  split at h
  · exact Response.noConfusion h
  · split at h
    · exact Response.noConfusion h
    · split at h
      · exact Response.noConfusion h
      · injection h with hd
        subst hd
        exact ⟨rfl, hgroup, rfl⟩

/-- Witness for the amended C5 at the concrete two-region scenario. -/
theorem C5_witness :
    dC5.regionCount = (segment_by_color
        (create_color_map kmeansC5 imgC5 maskC5 (max 3 (min 7 5))).2 maskC5
        (create_color_map kmeansC5 imgC5 maskC5 (max 3 (min 7 5))).1 true).length ∧
    (∀ r : ColorRegion, vectorize_mask_to_svg potraceC5 r.mask r.color_info.hex
        imgC5.w imgC5.h true = "" →
      groupParts potraceC5 extractPathsC5 r imgC5.w imgC5.h true = []) ∧
    dC5.svg = postprocess_svg (String.intercalate "\n"
        ([svgHeader imgC5.w imgC5.h, "<g id=\"drawing\">"]
          ++ (segment_by_color (create_color_map kmeansC5 imgC5 maskC5 (max 3 (min 7 5))).2
              maskC5 (create_color_map kmeansC5 imgC5 maskC5 (max 3 (min 7 5))).1
              true).flatMap
              (fun r => groupParts potraceC5 extractPathsC5 r imgC5.w imgC5.h true)
          ++ ["</g>", "</svg>"]))
        (create_color_map kmeansC5 imgC5 maskC5 (max 3 (min 7 5))).1 34 6
        (if true then "authentic" else "clean") "0.10" :=
  C5_region_soft_failure kmeansC5 potraceC5 extractPathsC5 imgC5 maskC5 34 6 5 true "0.10"
    dC5 respC5_eq
